import Mathlib

/-!
Verification of the ChCore aarch64 translation-table manager
(`kernel/arch/aarch64/mm/page_table.c`).

The development shallowly embeds the C code over a machine-state model:

* a page-table entry (PTE) is a 64-bit word, modelled as a `Nat` kept
  below `2 ^ 64`; bit fields are read and written through `getBits` and
  `setBits`, matching the aarch64 descriptor layout of the interface
  header (`arch/mm/page_table.h`);
* physical memory is a map from physical frame number to the 512-entry
  array of PTE words held by that frame; the physical page allocator is
  a fresh-frame counter (`get_pages(0)` returns the next never-used
  frame, zero-filled by the subsequent `memset`), and `free_pages` is
  recorded as an ordered list of freed frames;
* each C loop is translated as a structurally recursive Lean function;
  outer `while (page_num > 0)` loops take an explicit fuel argument and
  return `none` when the fuel is exhausted, so a run that returns
  `some st` is a terminating run of the C loop.

All u64 arithmetic that can wrap in C is performed modulo `2 ^ 64`.
-/

namespace ChCorePT

/-! ## Architecture constants

Constants below come from the interface headers (`arch/mm/page_table.h`,
`arch/mmu.h`), which are outside the extracted source tree. -/

/-- Modelled from the spec: 4 KB translation granule. -/
def PAGE_SIZE : Nat := 4096

/-- Modelled from the spec: `log2 PAGE_SIZE`. -/
def PAGE_SHIFT : Nat := 12

/-- Modelled from the spec: 512 entries per table page, 9 index bits. -/
def PAGE_ORDER : Nat := 9

/-- Modelled from the spec: each translation table page holds 512 entries. -/
def PTP_ENTRIES : Nat := 512

/-- Modelled from the spec: pages covered by one L2 entry (2 MB / 4 KB). -/
def L2_PER_ENTRY_PAGES : Nat := 512

/-- Modelled from the spec: pages covered by one L1 entry (1 GB / 4 KB). -/
def L1_PER_ENTRY_PAGES : Nat := 512 * 512

/-- Modelled from the spec: pages covered by one L0 entry (512 GB / 4 KB). -/
def L0_PER_ENTRY_PAGES : Nat := 512 * 512 * 512

/-- Modulus of the C type `u64`. -/
def U64 : Nat := 2 ^ 64

/-- Modelled from the spec: protection flag bits `vmr_prop_t`
(`VMR_READ`, read access is implicit). -/
def VMR_READ : Nat := 1

/-- Modelled from the spec: `VMR_WRITE` protection flag bit. -/
def VMR_WRITE : Nat := 2

/-- Modelled from the spec: `VMR_EXEC` protection flag bit. -/
def VMR_EXEC : Nat := 4

/-- Modelled from the spec: `VMR_DEVICE` protection flag bit. -/
def VMR_DEVICE : Nat := 8

/-- Modelled from the spec: `VMR_NOCACHE` protection flag bit. -/
def VMR_NOCACHE : Nat := 16

/-- Modelled from the spec: AP value granting EL1 and EL0 read-write. -/
def AARCH64_MMU_ATTR_PAGE_AP_HIGH_RW_EL0_RW : Nat := 1

/-- Modelled from the spec: AP value granting EL1 and EL0 read-only. -/
def AARCH64_MMU_ATTR_PAGE_AP_HIGH_RO_EL0_RO : Nat := 3

/-- Modelled from the spec: UXN field value allowing user execution. -/
def AARCH64_MMU_ATTR_PAGE_UX : Nat := 0

/-- Modelled from the spec: UXN field value forbidding user execution. -/
def AARCH64_MMU_ATTR_PAGE_UXN : Nat := 1

/-- Modelled from the spec: PXN field value (kernel never executes). -/
def AARCH64_MMU_ATTR_PAGE_PXN : Nat := 1

/-- Modelled from the spec: pre-set access flag value. -/
def AARCH64_MMU_ATTR_PAGE_AF_ACCESSED : Nat := 1

/-- Modelled from the spec: inner-shareable shareability domain. -/
def INNER_SHAREABLE : Nat := 3

/-- Modelled from the spec: MAIR attribute index of Device memory. -/
def DEVICE_MEMORY : Nat := 0

/-- Modelled from the spec: MAIR attribute index of Normal non-cacheable
memory. -/
def NORMAL_MEMORY_NOCACHE : Nat := 3

/-- Modelled from the spec: MAIR attribute index of Normal cacheable
memory. -/
def NORMAL_MEMORY : Nat := 4

/-- Modelled from the spec: the all-zero descriptor is invalid
(`PTE_DESCRIPTOR_INVALID`). -/
def PTE_DESCRIPTOR_INVALID : Nat := 0

/-! ## Bit-field access on 64-bit descriptor words -/

/-- Read the `w`-bit field of `x` starting at bit `lo`. -/
def getBits (x lo w : Nat) : Nat := x / 2 ^ lo % 2 ^ w

/-- Overwrite the `w`-bit field of `x` starting at bit `lo` with `v`
(truncated to `w` bits), like an assignment to a C bit-field. -/
def setBits (x lo w v : Nat) : Nat :=
  x % 2 ^ lo + v % 2 ^ w * 2 ^ lo + x / 2 ^ (lo + w) * 2 ^ (lo + w)

/-- Modelled from the spec: `IS_PTE_INVALID` tests the validity bit
(bit 0). -/
def IS_PTE_INVALID (p : Nat) : Bool := p % 2 == 0

/-- Modelled from the spec: `IS_PTE_TABLE` tests the type bit (bit 1):
table descriptor at L0-L2, page descriptor at L3. -/
def IS_PTE_TABLE (p : Nat) : Bool := p / 2 % 2 == 1

/-- Modelled from the spec: `GET_L0_INDEX`, virtual-address bits 39-47. -/
def GET_L0_INDEX (va : Nat) : Nat := va / 2 ^ 39 % 512

/-- Modelled from the spec: `GET_L1_INDEX`, virtual-address bits 30-38. -/
def GET_L1_INDEX (va : Nat) : Nat := va / 2 ^ 30 % 512

/-- Modelled from the spec: `GET_L2_INDEX`, virtual-address bits 21-29. -/
def GET_L2_INDEX (va : Nat) : Nat := va / 2 ^ 21 % 512

/-- Modelled from the spec: `GET_L3_INDEX`, virtual-address bits 12-20. -/
def GET_L3_INDEX (va : Nat) : Nat := va / 2 ^ 12 % 512

/-- Modelled from the spec: `GET_VA_OFFSET_L1`, offset within a 1 GB
block. -/
def GET_VA_OFFSET_L1 (va : Nat) : Nat := va % 2 ^ 30

/-- Modelled from the spec: `GET_VA_OFFSET_L2`, offset within a 2 MB
block. -/
def GET_VA_OFFSET_L2 (va : Nat) : Nat := va % 2 ^ 21

/-- Modelled from the spec: `GET_VA_OFFSET_L3`, offset within a 4 KB
page. -/
def GET_VA_OFFSET_L3 (va : Nat) : Nat := va % 2 ^ 12

/-- Index selection of `get_next_ptp`'s `switch (level)`; levels other
than 0-3 hit `BUG_ON` in C and are unreachable from all call sites. -/
def getIndex : Nat → Nat → Nat
  | 0, va => GET_L0_INDEX va
  | 1, va => GET_L1_INDEX va
  | 2, va => GET_L2_INDEX va
  | 3, va => GET_L3_INDEX va
  | _, _ => 0

/-! ## Descriptor constructors (`set_pte_flags` and the mapping loops) -/

/-- Embedding of `set_pte_flags` (page_table.c lines 36-79) for
`kind = USER_PTE`, the only kind any call site passes (`BUG_ON`
otherwise).  Field positions follow the aarch64 layout: AP bits 6-7,
SH bits 8-9, AF bit 10, nG bit 11, attr_index bits 2-4, PXN bit 53,
UXN bit 54. -/
def set_pte_flags (entry flags : Nat) : Nat :=
  let e1 := setBits entry 6 2
    (if flags &&& VMR_WRITE ≠ 0 then AARCH64_MMU_ATTR_PAGE_AP_HIGH_RW_EL0_RW
     else AARCH64_MMU_ATTR_PAGE_AP_HIGH_RO_EL0_RO)
  let e2 := setBits e1 54 1
    (if flags &&& VMR_EXEC ≠ 0 then AARCH64_MMU_ATTR_PAGE_UX
     else AARCH64_MMU_ATTR_PAGE_UXN)
  let e3 := setBits e2 53 1 AARCH64_MMU_ATTR_PAGE_PXN
  let e4 := setBits e3 10 1 AARCH64_MMU_ATTR_PAGE_AF_ACCESSED
  let e5 := setBits e4 11 1 1
  let e6 := setBits e5 8 2 INNER_SHAREABLE
  if flags &&& VMR_DEVICE ≠ 0 then setBits (setBits e6 2 3 DEVICE_MEMORY) 8 2 0
  else if flags &&& VMR_NOCACHE ≠ 0 then setBits e6 2 3 NORMAL_MEMORY_NOCACHE
  else setBits e6 2 3 NORMAL_MEMORY

/-- Table descriptor installed by `get_next_ptp` when it allocates a new
table page: `is_valid = 1`, `is_table = 1`,
`next_table_addr = new_ptp_paddr >> PAGE_SHIFT` (36-bit field). -/
def tablePte (frame : Nat) : Nat :=
  setBits (setBits (setBits 0 0 1 1) 1 1 1) 12 36 frame

/-- L3 descriptor built by `map_range_in_pgtbl` (lines 320-326):
`is_valid = 1`, `is_page = 1`, `pfn = pa >> PAGE_SHIFT`, then
`set_pte_flags`. -/
def mkL3PageMap (pa flags : Nat) : Nat :=
  set_pte_flags (setBits (setBits (setBits 0 0 1 1) 1 1 1) 12 36 (pa / 2 ^ 12)) flags

/-- L1 block descriptor built by `map_range_in_pgtbl_huge` (lines
421-427): `is_valid = 1`, `is_table = 0`, `pfn = pa >> 30` (18-bit field
at bit 30). -/
def mkL1BlockMap (pa flags : Nat) : Nat :=
  set_pte_flags (setBits (setBits (setBits 0 0 1 1) 1 1 0) 30 18 (pa / 2 ^ 30)) flags

/-- L2 block descriptor built by `map_range_in_pgtbl_huge` (lines
457-463): `is_valid = 1`, `is_table = 0`, `pfn = pa >> 21` (27-bit field
at bit 21). -/
def mkL2BlockMap (pa flags : Nat) : Nat :=
  set_pte_flags (setBits (setBits (setBits 0 0 1 1) 1 1 0) 21 27 (pa / 2 ^ 21)) flags

/-- L3 descriptor built by the sub-2MB tail of `map_range_in_pgtbl_huge`
(lines 493-498).  Note the source writes `l3_page.is_page = 0` here,
unlike `map_range_in_pgtbl` which writes `is_page = 1`. -/
def mkL3PageHuge (pa flags : Nat) : Nat :=
  set_pte_flags (setBits (setBits (setBits 0 0 1 1) 1 1 0) 12 36 (pa / 2 ^ 12)) flags

/-! ## Machine state -/

/-- Machine state: contents of every physical frame (as an array of PTE
words indexed 0-511), the allocator's fresh-frame counter, the number of
`get_pages` calls made, and the ordered list of frames passed to
`free_pages`. -/
structure MState where
  mem : Nat → Nat → Nat
  next : Nat
  allocs : Nat
  freed : List Nat

/-- Store descriptor word `v` into slot `s` of frame `f` (a single
64-bit store, as in the C publication idiom). -/
def writePte (st : MState) (f s v : Nat) : MState :=
  { st with mem := fun g t => if g = f then (if t = s then v else st.mem g t) else st.mem g t }

/-- `get_pages(0)` followed by `memset(new_ptp, 0, PAGE_SIZE)`: returns
a fresh frame, zero-filled. -/
def allocPtp (st : MState) : Nat × MState :=
  (st.next,
   { st with
     mem := fun g t => if g = st.next then 0 else st.mem g t,
     next := st.next + 1,
     allocs := st.allocs + 1 })

/-- State of a freshly created address space: the caller has allocated
the root frame and zero-filled it.  All memory is zero-filled in this
canonical instance; the theorems only assume that the root frame is. -/
def initState (root : Nat) : MState :=
  { mem := fun _ _ => 0, next := root + 1, allocs := 0, freed := [] }

/-- Combined effect of `get_next_ptp`'s allocation branch: allocate a
fresh zero frame and publish a table descriptor to it in slot `idx` of
frame `f`. -/
def installTable (st : MState) (f idx : Nat) : MState :=
  writePte (allocPtp st).2 f idx (tablePte st.next)

/-! ## Tree walker: `get_next_ptp` -/

/-- Result of one `get_next_ptp` step: `-ENOMAPPING`, or the returned
kind (`isTable = true` for `NORMAL_PTP`, `false` for `BLOCK_PTP`)
together with the next table frame (`GET_PADDR_IN_PTE >> PAGE_SHIFT`)
and the position `(f, s)` of the examined entry (the returned `pte`
pointer). -/
inductive GNP where
  | noMapping : GNP
  | found (isTable : Bool) (next f s : Nat) : GNP
deriving DecidableEq

/-- Embedding of `get_next_ptp` (lines 100-168).  `cur = none` is a NULL
`cur_ptp`.  With `alloc = true` an invalid entry is replaced by a table
descriptor pointing at a freshly allocated, zero-filled frame. -/
def get_next_ptp (st : MState) (cur : Option Nat) (level va : Nat) (alloc : Bool) :
    GNP × MState :=
  match cur with
  | none => (GNP.noMapping, st)
  | some c =>
    let index := getIndex level va
    let entry := st.mem c index
    if IS_PTE_INVALID entry then
      if alloc then
        let a := allocPtp st
        let npte := tablePte a.1
        let st2 := writePte a.2 c index npte
        (GNP.found (IS_PTE_TABLE npte) (getBits npte 12 36) c index, st2)
      else (GNP.noMapping, st)
    else
      (GNP.found (IS_PTE_TABLE entry) (getBits entry 12 36) c index, st)

/-! ## Query: `query_in_pgtbl` -/

/-- Embedding of `query_in_pgtbl` (lines 233-296).  Returns the
physical address together with the position of the found PTE, or `none`
for `-ENOMAPPING`, and threads the (unchanged) machine state exactly as
the C walk does.  `virt_to_phys (phys_to_virt x) = x`, so the physical
address computed from a leaf at frame `n` is `n * PAGE_SIZE` plus the
level's VA offset. -/
def query_in_pgtbl (st : MState) (pgtbl : Option Nat) (va : Nat) :
    Option (Nat × Nat × Nat) × MState :=
  match get_next_ptp st pgtbl 0 va false with
  | (GNP.noMapping, st0) => (none, st0)
  | (GNP.found _ n0 _ _, st0) =>
    match get_next_ptp st0 (some n0) 1 va false with
    | (GNP.noMapping, st1) => (none, st1)
    | (GNP.found false n1 f1 s1, st1) =>
      (some (n1 * PAGE_SIZE + GET_VA_OFFSET_L1 va, f1, s1), st1)
    | (GNP.found true n1 _ _, st1) =>
      match get_next_ptp st1 (some n1) 2 va false with
      | (GNP.noMapping, st2) => (none, st2)
      | (GNP.found false n2 f2 s2, st2) =>
        (some (n2 * PAGE_SIZE + GET_VA_OFFSET_L2 va, f2, s2), st2)
      | (GNP.found true n2 _ _, st2) =>
        match get_next_ptp st2 (some n2) 3 va false with
        | (GNP.noMapping, st3) => (none, st3)
        | (GNP.found _ n3 f3 s3, st3) =>
          (some (n3 * PAGE_SIZE + GET_VA_OFFSET_L3 va, f3, s3), st3)

/-! ## Page-granularity mapper: `map_range_in_pgtbl` -/

/-- Inner L3 fill loop of `map_range_in_pgtbl` (lines 319-338), running
over at most `slots = PTP_ENTRIES - i` consecutive slots of one L3
table.  The `--page_num` decrement cannot wrap: the loop is entered
with `page_num > 0` and stops exactly when it reaches zero. -/
def map_l3_loop : Nat → MState → Nat → Nat → Nat → Nat → Nat → Nat →
    MState × Nat × Nat × Nat
  | 0, st, _, _, va, pa, _, pn => (st, va, pa, pn)
  | slots + 1, st, l3f, i, va, pa, flags, pn =>
    let st1 := writePte st l3f i (mkL3PageMap pa flags)
    let va1 := (va + PAGE_SIZE) % U64
    let pa1 := (pa + PAGE_SIZE) % U64
    let pn1 := pn - 1
    if pn1 = 0 then (st1, va1, pa1, 0)
    else map_l3_loop slots st1 l3f (i + 1) va1 pa1 flags pn1

/-- Outer `while (page_num > 0)` loop of `map_range_in_pgtbl` (lines
310-339): descend levels 0-2 with allocation (return values are ignored
by the C code), then fill the reached L3 table.  The `noMapping` arms
are unreachable because the walker never fails when `alloc` is true and
`cur` is non-null. -/
def map_loop : Nat → MState → Nat → Nat → Nat → Nat → Nat → Option MState
  | 0, st, _, _, _, _, pn => if pn = 0 then some st else none
  | fuel + 1, st, root, va, pa, flags, pn =>
    if pn = 0 then some st else
    match get_next_ptp st (some root) 0 va true with
    | (GNP.noMapping, st0) => some st0
    | (GNP.found _ n0 _ _, st0) =>
      match get_next_ptp st0 (some n0) 1 va true with
      | (GNP.noMapping, st1) => some st1
      | (GNP.found _ n1 _ _, st1) =>
        match get_next_ptp st1 (some n1) 2 va true with
        | (GNP.noMapping, st2) => some st2
        | (GNP.found _ n2 _ _, st2) =>
          let r := map_l3_loop (PTP_ENTRIES - GET_L3_INDEX va) st2 n2
            (GET_L3_INDEX va) va pa flags pn
          map_loop fuel r.1 root r.2.1 r.2.2.1 flags r.2.2.2

/-- Page count of a byte length: `len / PAGE_SIZE + (len % PAGE_SIZE > 0)`. -/
def pagesOf (len : Nat) : Nat :=
  len / PAGE_SIZE + (if len % PAGE_SIZE > 0 then 1 else 0)

/-- Embedding of `map_range_in_pgtbl` (lines 298-344).  Each outer
iteration maps at least one page, so `pagesOf len` outer iterations
always suffice; a `some` result is the state in which the C function
returns 0. -/
def map_range_in_pgtbl (st : MState) (root va pa len flags : Nat) : Option MState :=
  map_loop (pagesOf len) st root va pa flags (pagesOf len)

/-! ## Page-granularity unmapper: `unmap_range_in_pgtbl` -/

/-- Inner L3 invalidation loop of `unmap_range_in_pgtbl` (lines
386-396). -/
def unmap_l3_loop : Nat → MState → Nat → Nat → Nat → Nat → MState × Nat × Nat
  | 0, st, _, _, va, pn => (st, va, pn)
  | slots + 1, st, l3f, i, va, pn =>
    let st1 := writePte st l3f i PTE_DESCRIPTOR_INVALID
    let va1 := (va + PAGE_SIZE) % U64
    let pn1 := pn - 1
    if pn1 = 0 then (st1, va1, 0)
    else unmap_l3_loop slots st1 l3f (i + 1) va1 pn1

/-- Outer loop of `unmap_range_in_pgtbl` (lines 356-397).  A missing
subtree at level L skips forward by that level's page span; the u64
subtraction `page_num -= span` is performed modulo `2 ^ 64` and wraps
around when `page_num < span`, exactly as in C. -/
def unmap_loop : Nat → MState → Nat → Nat → Nat → Option MState
  | 0, st, _, _, pn => if pn = 0 then some st else none
  | fuel + 1, st, root, va, pn =>
    if pn = 0 then some st else
    match get_next_ptp st (some root) 0 va false with
    | (GNP.noMapping, st0) =>
      unmap_loop fuel st0 root ((va + L0_PER_ENTRY_PAGES * PAGE_SIZE) % U64)
        ((pn + (U64 - L0_PER_ENTRY_PAGES)) % U64)
    | (GNP.found _ n0 _ _, st0) =>
      match get_next_ptp st0 (some n0) 1 va false with
      | (GNP.noMapping, st1) =>
        unmap_loop fuel st1 root ((va + L1_PER_ENTRY_PAGES * PAGE_SIZE) % U64)
          ((pn + (U64 - L1_PER_ENTRY_PAGES)) % U64)
      | (GNP.found _ n1 _ _, st1) =>
        match get_next_ptp st1 (some n1) 2 va false with
        | (GNP.noMapping, st2) =>
          unmap_loop fuel st2 root ((va + L2_PER_ENTRY_PAGES * PAGE_SIZE) % U64)
            ((pn + (U64 - L2_PER_ENTRY_PAGES)) % U64)
        | (GNP.found _ n2 _ _, st2) =>
          let r := unmap_l3_loop (PTP_ENTRIES - GET_L3_INDEX va) st2 n2
            (GET_L3_INDEX va) va pn
          unmap_loop fuel r.1 root r.2.1 r.2.2

/-- Embedding of `unmap_range_in_pgtbl` (lines 346-402), given
`pagesOf len` outer iterations of fuel (enough for every terminating
run that never wraps `page_num`). -/
def unmap_range_in_pgtbl (st : MState) (root va len : Nat) : Option MState :=
  unmap_loop (pagesOf len) st root va (pagesOf len)

/-! ## Huge mapper: `map_range_in_pgtbl_huge` -/

/-- Inner L1 block fill loop of `map_range_in_pgtbl_huge` (lines
420-439); stride is `page_size = PAGE_SIZE * PTP_ENTRIES * PTP_ENTRIES`
(1 GB). -/
def huge_l1_loop : Nat → MState → Nat → Nat → Nat → Nat → Nat → Nat →
    MState × Nat × Nat × Nat
  | 0, st, _, _, va, pa, _, pn => (st, va, pa, pn)
  | slots + 1, st, l1f, i, va, pa, flags, pn =>
    let st1 := writePte st l1f i (mkL1BlockMap pa flags)
    let va1 := (va + 2 ^ 30) % U64
    let pa1 := (pa + 2 ^ 30) % U64
    let pn1 := pn - 1
    if pn1 = 0 then (st1, va1, pa1, 0)
    else huge_l1_loop slots st1 l1f (i + 1) va1 pa1 flags pn1

/-- Inner L2 block fill loop of `map_range_in_pgtbl_huge` (lines
456-475); stride is 2 MB. -/
def huge_l2_loop : Nat → MState → Nat → Nat → Nat → Nat → Nat → Nat →
    MState × Nat × Nat × Nat
  | 0, st, _, _, va, pa, _, pn => (st, va, pa, pn)
  | slots + 1, st, l2f, i, va, pa, flags, pn =>
    let st1 := writePte st l2f i (mkL2BlockMap pa flags)
    let va1 := (va + 2 ^ 21) % U64
    let pa1 := (pa + 2 ^ 21) % U64
    let pn1 := pn - 1
    if pn1 = 0 then (st1, va1, pa1, 0)
    else huge_l2_loop slots st1 l2f (i + 1) va1 pa1 flags pn1

/-- Inner L3 fill loop of the sub-2MB tail of `map_range_in_pgtbl_huge`
(lines 491-510); note it installs `mkL3PageHuge` descriptors. -/
def huge_l3_loop : Nat → MState → Nat → Nat → Nat → Nat → Nat → Nat →
    MState × Nat × Nat × Nat
  | 0, st, _, _, va, pa, _, pn => (st, va, pa, pn)
  | slots + 1, st, l3f, i, va, pa, flags, pn =>
    let st1 := writePte st l3f i (mkL3PageHuge pa flags)
    let va1 := (va + PAGE_SIZE) % U64
    let pa1 := (pa + PAGE_SIZE) % U64
    let pn1 := pn - 1
    if pn1 = 0 then (st1, va1, pa1, 0)
    else huge_l3_loop slots st1 l3f (i + 1) va1 pa1 flags pn1

/-- First phase of `map_range_in_pgtbl_huge` (lines 414-440): 1 GB
chunks as L1 blocks, descending only through level 0. -/
def huge_phase1 : Nat → MState → Nat → Nat → Nat → Nat → Nat →
    Option (MState × Nat × Nat)
  | 0, st, _, va, pa, _, pn => if pn = 0 then some (st, va, pa) else none
  | fuel + 1, st, root, va, pa, flags, pn =>
    if pn = 0 then some (st, va, pa) else
    match get_next_ptp st (some root) 0 va true with
    | (GNP.noMapping, st0) => some (st0, va, pa)
    | (GNP.found _ n0 _ _, st0) =>
      let r := huge_l1_loop (PTP_ENTRIES - GET_L1_INDEX va) st0 n0
        (GET_L1_INDEX va) va pa flags pn
      huge_phase1 fuel r.1 root r.2.1 r.2.2.1 flags r.2.2.2

/-- Second phase of `map_range_in_pgtbl_huge` (lines 449-476): 2 MB
chunks as L2 blocks, descending through levels 0-1. -/
def huge_phase2 : Nat → MState → Nat → Nat → Nat → Nat → Nat →
    Option (MState × Nat × Nat)
  | 0, st, _, va, pa, _, pn => if pn = 0 then some (st, va, pa) else none
  | fuel + 1, st, root, va, pa, flags, pn =>
    if pn = 0 then some (st, va, pa) else
    match get_next_ptp st (some root) 0 va true with
    | (GNP.noMapping, st0) => some (st0, va, pa)
    | (GNP.found _ n0 _ _, st0) =>
      match get_next_ptp st0 (some n0) 1 va true with
      | (GNP.noMapping, st1) => some (st1, va, pa)
      | (GNP.found _ n1 _ _, st1) =>
        let r := huge_l2_loop (PTP_ENTRIES - GET_L2_INDEX va) st1 n1
          (GET_L2_INDEX va) va pa flags pn
        huge_phase2 fuel r.1 root r.2.1 r.2.2.1 flags r.2.2.2

/-- Third phase of `map_range_in_pgtbl_huge` (lines 483-511): the
sub-2MB remainder as L3 entries, descending through levels 0-2. -/
def huge_phase3 : Nat → MState → Nat → Nat → Nat → Nat → Nat →
    Option (MState × Nat × Nat)
  | 0, st, _, va, pa, _, pn => if pn = 0 then some (st, va, pa) else none
  | fuel + 1, st, root, va, pa, flags, pn =>
    if pn = 0 then some (st, va, pa) else
    match get_next_ptp st (some root) 0 va true with
    | (GNP.noMapping, st0) => some (st0, va, pa)
    | (GNP.found _ n0 _ _, st0) =>
      match get_next_ptp st0 (some n0) 1 va true with
      | (GNP.noMapping, st1) => some (st1, va, pa)
      | (GNP.found _ n1 _ _, st1) =>
        match get_next_ptp st1 (some n1) 2 va true with
        | (GNP.noMapping, st2) => some (st2, va, pa)
        | (GNP.found _ n2 _ _, st2) =>
          let r := huge_l3_loop (PTP_ENTRIES - GET_L3_INDEX va) st2 n2
            (GET_L3_INDEX va) va pa flags pn
          huge_phase3 fuel r.1 root r.2.1 r.2.2.1 flags r.2.2.2

/-- Embedding of `map_range_in_pgtbl_huge` (lines 404-515): greedy
1 GB, then 2 MB, then 4 KB phases, threading `va`, `pa` and the
remaining `len` between phases exactly as the C code mutates them. -/
def map_range_in_pgtbl_huge (st : MState) (root va pa len flags : Nat) :
    Option MState :=
  let pn1 := len / 2 ^ 30
  let len1 := len - pn1 * 2 ^ 30
  match huge_phase1 pn1 st root va pa flags pn1 with
  | none => none
  | some (st1, va1, pa1) =>
    let pn2 := len1 / 2 ^ 21
    let len2 := len1 - pn2 * 2 ^ 21
    match huge_phase2 pn2 st1 root va1 pa1 flags pn2 with
    | none => none
    | some (st2, va2, pa2) =>
      match huge_phase3 (pagesOf len2) st2 root va2 pa2 flags (pagesOf len2) with
      | none => none
      | some (st3, _, _) => some st3

/-! ## Huge unmapper: `unmap_range_in_pgtbl_huge` -/

/-- Outer loop of `unmap_range_in_pgtbl_huge` (lines 522-575): like the
page-granularity unmapper, but a `BLOCK_PTP` result at L1 or L2
invalidates that single descriptor through the returned `pte` pointer
and advances by the block's span. -/
def unmap_huge_loop : Nat → MState → Nat → Nat → Nat → Option MState
  | 0, st, _, _, pn => if pn = 0 then some st else none
  | fuel + 1, st, root, va, pn =>
    if pn = 0 then some st else
    match get_next_ptp st (some root) 0 va false with
    | (GNP.noMapping, st0) =>
      unmap_huge_loop fuel st0 root ((va + L0_PER_ENTRY_PAGES * PAGE_SIZE) % U64)
        ((pn + (U64 - L0_PER_ENTRY_PAGES)) % U64)
    | (GNP.found _ n0 _ _, st0) =>
      match get_next_ptp st0 (some n0) 1 va false with
      | (GNP.noMapping, st1) =>
        unmap_huge_loop fuel st1 root ((va + L1_PER_ENTRY_PAGES * PAGE_SIZE) % U64)
          ((pn + (U64 - L1_PER_ENTRY_PAGES)) % U64)
      | (GNP.found false _ f1 s1, st1) =>
        unmap_huge_loop fuel (writePte st1 f1 s1 PTE_DESCRIPTOR_INVALID) root
          ((va + PAGE_SIZE * PTP_ENTRIES * PTP_ENTRIES) % U64)
          ((pn + (U64 - PTP_ENTRIES * PTP_ENTRIES)) % U64)
      | (GNP.found true n1 _ _, st1) =>
        match get_next_ptp st1 (some n1) 2 va false with
        | (GNP.noMapping, st2) =>
          unmap_huge_loop fuel st2 root ((va + L2_PER_ENTRY_PAGES * PAGE_SIZE) % U64)
            ((pn + (U64 - L2_PER_ENTRY_PAGES)) % U64)
        | (GNP.found false _ f2 s2, st2) =>
          unmap_huge_loop fuel (writePte st2 f2 s2 PTE_DESCRIPTOR_INVALID) root
            ((va + PAGE_SIZE * PTP_ENTRIES) % U64)
            ((pn + (U64 - PTP_ENTRIES)) % U64)
        | (GNP.found true n2 _ _, st2) =>
          let r := unmap_l3_loop (PTP_ENTRIES - GET_L3_INDEX va) st2 n2
            (GET_L3_INDEX va) va pn
          unmap_huge_loop fuel r.1 root r.2.1 r.2.2

/-- Embedding of `unmap_range_in_pgtbl_huge` (lines 517-579). -/
def unmap_range_in_pgtbl_huge (st : MState) (root va len : Nat) : Option MState :=
  unmap_huge_loop (pagesOf len) st root va (pagesOf len)

/-! ## Table deallocator: `free_page_table` -/

/-- L2-level inner loop of `free_page_table` (lines 206-217): the L3
table frames freed while scanning one L2 table, in loop order.  An
entry is descended exactly when it is valid and of table type (the C
`continue` condition is the complement). -/
def freeL2List (m : Nat → Nat → Nat) (f2 : Nat) : List Nat :=
  (List.range PTP_ENTRIES).filterMap (fun k =>
    if IS_PTE_INVALID (m f2 k) || !IS_PTE_TABLE (m f2 k) then none
    else some (getBits (m f2 k) 12 36))

/-- L1-level loop of `free_page_table` (lines 195-221): for each valid
table entry, free the L3 frames under it, then the L2 frame itself. -/
def freeL1List (m : Nat → Nat → Nat) (f1 : Nat) : List Nat :=
  (List.range PTP_ENTRIES).flatMap (fun j =>
    if IS_PTE_INVALID (m f1 j) || !IS_PTE_TABLE (m f1 j) then []
    else freeL2List m (getBits (m f1 j) 12 36) ++ [getBits (m f1 j) 12 36])

/-- L0-level loop of `free_page_table` (lines 185-227): for each valid
table entry of the root, free its subtree then the L1 frame, finally
the root frame itself. -/
def freeL0List (m : Nat → Nat → Nat) (root : Nat) : List Nat :=
  ((List.range PTP_ENTRIES).flatMap (fun i =>
    if IS_PTE_INVALID (m root i) || !IS_PTE_TABLE (m root i) then []
    else freeL1List m (getBits (m root i) 12 36) ++ [getBits (m root i) 12 36]))
  ++ [root]

/-- Embedding of `free_page_table` (lines 170-228): a NULL argument
only logs a warning and returns; otherwise the frames listed by
`freeL0List` are passed to `free_pages` in that order.  The function
reads each table before freeing it and never writes memory. -/
def free_page_table (st : MState) (pgtbl : Option Nat) : MState :=
  match pgtbl with
  | none => st
  | some root => { st with freed := st.freed ++ freeL0List st.mem root }

/-! ## Specification-side tree view

The definitions below are not translations of C functions; they are the
proof-side view of the table tree used to state invariants: the frame
reached from `root` by following a list of in-table indices through
valid table descriptors. -/

/-- The frame a valid table descriptor at slot `i` of frame `f` points
to, if that slot holds one. -/
def childFrame (m : Nat → Nat → Nat) (f i : Nat) : Option Nat :=
  if !IS_PTE_INVALID (m f i) && IS_PTE_TABLE (m f i) then some (getBits (m f i) 12 36)
  else none

/-- Follow a path of table indices downward from frame `f`. -/
def frameAt (m : Nat → Nat → Nat) : Nat → List Nat → Option Nat
  | f, [] => some f
  | f, i :: p =>
    match childFrame m f i with
    | none => none
    | some g => frameAt m g p

/-- Paths relevant to the 4-level tree: at most length 3 (frames exist
at depths 0 to 3), all indices below `PTP_ENTRIES`. -/
def goodPath (p : List Nat) : Prop := p.length ≤ 3 ∧ ∀ i ∈ p, i < 512

/-- Structural well-formedness of a table tree rooted at `root`: every
reachable table frame (root included) lies below the allocator's
fresh-frame counter, and no frame is reachable by two different paths.
This holds for a fresh root and is preserved by the mapping loops. -/
structure Inv (m : Nat → Nat → Nat) (next root : Nat) : Prop where
  root_lt : root < next
  lt : ∀ p f, goodPath p → frameAt m root p = some f → f < next
  inj : ∀ p q f, goodPath p → goodPath q → frameAt m root p = some f →
    frameAt m root q = some f → p = q

/-- No block descriptors anywhere a page-granularity walk can descend:
every valid entry (at an in-range slot) of a frame reachable at depth
at most 2 is of table type.  Holds for a fresh tree and is preserved by
the page-granularity mapper, which installs tables at depth below 3 and
leaves only inside depth-3 frames. -/
def NoBlock (m : Nat → Nat → Nat) (root : Nat) : Prop :=
  ∀ p f, p.length ≤ 2 → (∀ i ∈ p, i < 512) → frameAt m root p = some f →
    ∀ s, s < 512 → IS_PTE_INVALID (m f s) = false → IS_PTE_TABLE (m f s) = true

/-- Index path of a virtual address down to its L3 table. -/
def path3 (va : Nat) : List Nat := [GET_L0_INDEX va, GET_L1_INDEX va, GET_L2_INDEX va]

/-- Helper used to state allocation counts: the alloc counter of a
possibly failed run. -/
def allocsOf : Option MState → Nat
  | none => 0
  | some st => st.allocs

/-- Helper used to read a PTE out of a possibly failed run. -/
def memOf : Option MState → Nat → Nat → Nat
  | none, _, _ => 0
  | some st, f, s => st.mem f s

/-- Frame the L0 entry of `va` points to (`GET_NEXT_PTP` of the L0
entry), as used by the read-only walk. -/
def walkFrame1 (m : Nat → Nat → Nat) (root va : Nat) : Nat :=
  getBits (m root (GET_L0_INDEX va)) 12 36

/-- Frame (or block base, in page units) the L1 entry of `va` points
to. -/
def walkFrame2 (m : Nat → Nat → Nat) (root va : Nat) : Nat :=
  getBits (m (walkFrame1 m root va) (GET_L1_INDEX va)) 12 36

/-- Frame (or block base, in page units) the L2 entry of `va` points
to. -/
def walkFrame3 (m : Nat → Nat → Nat) (root va : Nat) : Nat :=
  getBits (m (walkFrame2 m root va) (GET_L2_INDEX va)) 12 36

/-! ## Bit-field algebra -/

theorem pow2_pos (n : Nat) : 0 < 2 ^ n := pow_pos (by norm_num) n

theorem getBits_lt (x lo w : Nat) : getBits x lo w < 2 ^ w :=
  Nat.mod_lt _ (pow2_pos w)

theorem getBits_setBits_self (x lo w v : Nat) :
    getBits (setBits x lo w v) lo w = v % 2 ^ w := by
  have h : setBits x lo w v
      = x % 2 ^ lo + (v % 2 ^ w + x / 2 ^ (lo + w) * 2 ^ w) * 2 ^ lo := by
    unfold setBits; rw [pow_add]; ring
  unfold getBits
  rw [h, Nat.add_mul_div_right _ _ (pow2_pos lo),
    Nat.div_eq_of_lt (Nat.mod_lt _ (pow2_pos lo)), zero_add,
    Nat.add_mul_mod_self_right, Nat.mod_mod_of_dvd v dvd_rfl]

theorem setBits_lowpart (x lo w v : Nat) :
    setBits x lo w v % 2 ^ lo = x % 2 ^ lo := by
  have h : setBits x lo w v
      = x % 2 ^ lo + (v % 2 ^ w + x / 2 ^ (lo + w) * 2 ^ w) * 2 ^ lo := by
    unfold setBits; rw [pow_add]; ring
  rw [h, Nat.add_mul_mod_self_right, Nat.mod_mod_of_dvd x dvd_rfl]

theorem getBits_of_mod {lo2 w2 lo : Nat} (y : Nat) (h : lo2 + w2 ≤ lo) :
    getBits (y % 2 ^ lo) lo2 w2 = getBits y lo2 w2 := by
  unfold getBits
  conv_rhs => rw [← Nat.div_add_mod y (2 ^ lo)]
  have hsplit : 2 ^ lo * (y / 2 ^ lo) + y % 2 ^ lo
      = y % 2 ^ lo + y / 2 ^ lo * 2 ^ (lo - lo2) * 2 ^ lo2 := by
    have : (2 : Nat) ^ lo = 2 ^ (lo - lo2) * 2 ^ lo2 := by
      rw [← pow_add]; congr 1; omega
    rw [this]; ring
  rw [hsplit, Nat.add_mul_div_right _ _ (pow2_pos lo2)]
  have hw : y / 2 ^ lo * 2 ^ (lo - lo2)
      = y / 2 ^ lo * 2 ^ (lo - lo2 - w2) * 2 ^ w2 := by
    rw [mul_assoc, ← pow_add]; congr 2; omega
  rw [hw, Nat.add_mul_mod_self_right]

theorem getBits_setBits_low {lo2 w2 lo : Nat} (x w v : Nat) (h : lo2 + w2 ≤ lo) :
    getBits (setBits x lo w v) lo2 w2 = getBits x lo2 w2 := by
  rw [← getBits_of_mod (setBits x lo w v) h, setBits_lowpart, getBits_of_mod x h]

theorem getBits_highpart_div (x lo w v : Nat) :
    setBits x lo w v / 2 ^ (lo + w) = x / 2 ^ (lo + w) := by
  have h : setBits x lo w v
      = (x % 2 ^ lo + v % 2 ^ w * 2 ^ lo) + x / 2 ^ (lo + w) * 2 ^ (lo + w) := by
    unfold setBits; ring
  have hlt : x % 2 ^ lo + v % 2 ^ w * 2 ^ lo < 2 ^ (lo + w) := by
    have h1 : x % 2 ^ lo < 2 ^ lo := Nat.mod_lt _ (pow2_pos lo)
    have h2 : v % 2 ^ w * 2 ^ lo ≤ (2 ^ w - 1) * 2 ^ lo := by
      have := Nat.mod_lt v (pow2_pos w)
      exact Nat.mul_le_mul_right _ (by omega)
    have h3 : 2 ^ lo + (2 ^ w - 1) * 2 ^ lo = 2 ^ (lo + w) := by
      have h4 : ((2 : Nat) ^ w - 1) + 1 = 2 ^ w := by
        have := pow2_pos w; omega
      calc 2 ^ lo + (2 ^ w - 1) * 2 ^ lo = ((2 ^ w - 1) + 1) * 2 ^ lo := by ring
        _ = 2 ^ w * 2 ^ lo := by rw [h4]
        _ = 2 ^ (lo + w) := by rw [← pow_add]; ring_nf
    omega
  rw [h, Nat.add_mul_div_right _ _ (pow2_pos (lo + w)), Nat.div_eq_of_lt hlt, zero_add]

theorem getBits_setBits_high {lo w lo2 : Nat} (x v w2 : Nat) (h : lo + w ≤ lo2) :
    getBits (setBits x lo w v) lo2 w2 = getBits x lo2 w2 := by
  unfold getBits
  have hsp : (2 : Nat) ^ lo2 = 2 ^ (lo + w) * 2 ^ (lo2 - (lo + w)) := by
    rw [← pow_add]; congr 1; omega
  rw [hsp, ← Nat.div_div_eq_div_mul, ← Nat.div_div_eq_div_mul, getBits_highpart_div]

theorem getBits_zero (lo w : Nat) : getBits 0 lo w = 0 := by
  unfold getBits; simp

theorem IS_PTE_INVALID_eq (p : Nat) : IS_PTE_INVALID p = (getBits p 0 1 == 0) := by
  unfold IS_PTE_INVALID getBits; norm_num

theorem IS_PTE_TABLE_eq (p : Nat) : IS_PTE_TABLE p = (getBits p 1 1 == 1) := by
  unfold IS_PTE_TABLE getBits; norm_num

/-! ## Field lemmas for `set_pte_flags` -/

theorem set_pte_flags_keeps_valid (e fl : Nat) :
    getBits (set_pte_flags e fl) 0 1 = getBits e 0 1 := by
  unfold set_pte_flags
  by_cases hd : fl &&& VMR_DEVICE ≠ 0 <;> by_cases hn : fl &&& VMR_NOCACHE ≠ 0 <;>
    simp +decide [hd, hn, getBits_setBits_low, getBits_setBits_high]

theorem set_pte_flags_keeps_type (e fl : Nat) :
    getBits (set_pte_flags e fl) 1 1 = getBits e 1 1 := by
  unfold set_pte_flags
  by_cases hd : fl &&& VMR_DEVICE ≠ 0 <;> by_cases hn : fl &&& VMR_NOCACHE ≠ 0 <;>
    simp +decide [hd, hn, getBits_setBits_low, getBits_setBits_high]

theorem set_pte_flags_keeps_addr (e fl : Nat) :
    getBits (set_pte_flags e fl) 12 36 = getBits e 12 36 := by
  unfold set_pte_flags
  by_cases hd : fl &&& VMR_DEVICE ≠ 0 <;> by_cases hn : fl &&& VMR_NOCACHE ≠ 0 <;>
    simp +decide [hd, hn, getBits_setBits_low, getBits_setBits_high]

theorem set_pte_flags_keeps_l1pfn (e fl : Nat) :
    getBits (set_pte_flags e fl) 30 18 = getBits e 30 18 := by
  unfold set_pte_flags
  by_cases hd : fl &&& VMR_DEVICE ≠ 0 <;> by_cases hn : fl &&& VMR_NOCACHE ≠ 0 <;>
    simp +decide [hd, hn, getBits_setBits_low, getBits_setBits_high]

theorem set_pte_flags_keeps_l2pfn (e fl : Nat) :
    getBits (set_pte_flags e fl) 21 27 = getBits e 21 27 := by
  unfold set_pte_flags
  by_cases hd : fl &&& VMR_DEVICE ≠ 0 <;> by_cases hn : fl &&& VMR_NOCACHE ≠ 0 <;>
    simp +decide [hd, hn, getBits_setBits_low, getBits_setBits_high]

theorem set_pte_flags_AP (e fl : Nat) :
    getBits (set_pte_flags e fl) 6 2
      = (if fl &&& VMR_WRITE ≠ 0 then AARCH64_MMU_ATTR_PAGE_AP_HIGH_RW_EL0_RW
         else AARCH64_MMU_ATTR_PAGE_AP_HIGH_RO_EL0_RO) := by
  unfold set_pte_flags
  by_cases hd : fl &&& VMR_DEVICE ≠ 0 <;> by_cases hn : fl &&& VMR_NOCACHE ≠ 0 <;>
    by_cases hw : fl &&& VMR_WRITE ≠ 0 <;>
    simp +decide [hd, hn, hw, getBits_setBits_low, getBits_setBits_high,
      getBits_setBits_self, AARCH64_MMU_ATTR_PAGE_AP_HIGH_RW_EL0_RW,
      AARCH64_MMU_ATTR_PAGE_AP_HIGH_RO_EL0_RO]

theorem set_pte_flags_UXN (e fl : Nat) :
    getBits (set_pte_flags e fl) 54 1
      = (if fl &&& VMR_EXEC ≠ 0 then AARCH64_MMU_ATTR_PAGE_UX
         else AARCH64_MMU_ATTR_PAGE_UXN) := by
  unfold set_pte_flags
  by_cases hd : fl &&& VMR_DEVICE ≠ 0 <;> by_cases hn : fl &&& VMR_NOCACHE ≠ 0 <;>
    by_cases he : fl &&& VMR_EXEC ≠ 0 <;>
    simp +decide [hd, hn, he, getBits_setBits_low, getBits_setBits_high,
      getBits_setBits_self, AARCH64_MMU_ATTR_PAGE_UX, AARCH64_MMU_ATTR_PAGE_UXN]

theorem set_pte_flags_PXN (e fl : Nat) : getBits (set_pte_flags e fl) 53 1 = 1 := by
  unfold set_pte_flags
  by_cases hd : fl &&& VMR_DEVICE ≠ 0 <;> by_cases hn : fl &&& VMR_NOCACHE ≠ 0 <;>
    simp +decide [hd, hn, getBits_setBits_low, getBits_setBits_high,
      getBits_setBits_self, DEVICE_MEMORY, NORMAL_MEMORY, NORMAL_MEMORY_NOCACHE,
      INNER_SHAREABLE]

theorem set_pte_flags_AF (e fl : Nat) : getBits (set_pte_flags e fl) 10 1 = 1 := by
  unfold set_pte_flags
  by_cases hd : fl &&& VMR_DEVICE ≠ 0 <;> by_cases hn : fl &&& VMR_NOCACHE ≠ 0 <;>
    simp +decide [hd, hn, getBits_setBits_low, getBits_setBits_high,
      getBits_setBits_self, DEVICE_MEMORY, NORMAL_MEMORY, NORMAL_MEMORY_NOCACHE,
      INNER_SHAREABLE]

theorem set_pte_flags_nG (e fl : Nat) : getBits (set_pte_flags e fl) 11 1 = 1 := by
  unfold set_pte_flags
  by_cases hd : fl &&& VMR_DEVICE ≠ 0 <;> by_cases hn : fl &&& VMR_NOCACHE ≠ 0 <;>
    simp +decide [hd, hn, getBits_setBits_low, getBits_setBits_high,
      getBits_setBits_self, DEVICE_MEMORY, NORMAL_MEMORY, NORMAL_MEMORY_NOCACHE,
      INNER_SHAREABLE]

theorem set_pte_flags_SH (e fl : Nat) :
    getBits (set_pte_flags e fl) 8 2
      = (if fl &&& VMR_DEVICE ≠ 0 then 0 else INNER_SHAREABLE) := by
  unfold set_pte_flags
  by_cases hd : fl &&& VMR_DEVICE ≠ 0 <;> by_cases hn : fl &&& VMR_NOCACHE ≠ 0 <;>
    simp +decide [hd, hn, getBits_setBits_low, getBits_setBits_high,
      getBits_setBits_self, DEVICE_MEMORY, NORMAL_MEMORY, NORMAL_MEMORY_NOCACHE,
      INNER_SHAREABLE]

theorem set_pte_flags_attr (e fl : Nat) :
    getBits (set_pte_flags e fl) 2 3
      = (if fl &&& VMR_DEVICE ≠ 0 then DEVICE_MEMORY
         else if fl &&& VMR_NOCACHE ≠ 0 then NORMAL_MEMORY_NOCACHE
         else NORMAL_MEMORY) := by
  unfold set_pte_flags
  by_cases hd : fl &&& VMR_DEVICE ≠ 0 <;> by_cases hn : fl &&& VMR_NOCACHE ≠ 0 <;>
    simp +decide [hd, hn, getBits_setBits_low, getBits_setBits_high,
      getBits_setBits_self, DEVICE_MEMORY, NORMAL_MEMORY, NORMAL_MEMORY_NOCACHE,
      INNER_SHAREABLE]


/-! ## Field lemmas for the descriptor constructors -/

theorem mkL3PageMap_def (pa fl : Nat) :
    mkL3PageMap pa fl = set_pte_flags (tablePte (pa / 2 ^ 12)) fl := rfl

theorem tablePte_valid (n : Nat) : IS_PTE_INVALID (tablePte n) = false := by
  rw [IS_PTE_INVALID_eq]
  simp +decide [tablePte, getBits_setBits_low, getBits_setBits_self]

theorem tablePte_table (n : Nat) : IS_PTE_TABLE (tablePte n) = true := by
  rw [IS_PTE_TABLE_eq]
  simp +decide [tablePte, getBits_setBits_low, getBits_setBits_self]

theorem tablePte_addr (n : Nat) : getBits (tablePte n) 12 36 = n % 2 ^ 36 := by
  unfold tablePte
  rw [getBits_setBits_self]

theorem mkL3PageMap_valid (pa fl : Nat) : IS_PTE_INVALID (mkL3PageMap pa fl) = false := by
  rw [IS_PTE_INVALID_eq, mkL3PageMap_def, set_pte_flags_keeps_valid,
    ← IS_PTE_INVALID_eq, tablePte_valid]

theorem mkL3PageMap_table (pa fl : Nat) : IS_PTE_TABLE (mkL3PageMap pa fl) = true := by
  rw [IS_PTE_TABLE_eq, mkL3PageMap_def, set_pte_flags_keeps_type,
    ← IS_PTE_TABLE_eq, tablePte_table]

theorem mkL3PageMap_addr (pa fl : Nat) :
    getBits (mkL3PageMap pa fl) 12 36 = pa / 2 ^ 12 % 2 ^ 36 := by
  rw [mkL3PageMap_def, set_pte_flags_keeps_addr, tablePte_addr]

theorem mkL3PageMap_AP (pa fl : Nat) :
    getBits (mkL3PageMap pa fl) 6 2
      = (if fl &&& VMR_WRITE ≠ 0 then 1 else 3) := by
  rw [mkL3PageMap_def, set_pte_flags_AP]; rfl

theorem mkL3PageMap_UXN (pa fl : Nat) :
    getBits (mkL3PageMap pa fl) 54 1
      = (if fl &&& VMR_EXEC ≠ 0 then 0 else 1) := by
  rw [mkL3PageMap_def, set_pte_flags_UXN]; rfl

theorem mkL1BlockMap_base (pa fl : Nat) :
    mkL1BlockMap pa fl
      = set_pte_flags (1 + pa / 2 ^ 30 % 2 ^ 18 * 2 ^ 30) fl := by
  unfold mkL1BlockMap setBits; norm_num

theorem mkL1BlockMap_valid (pa fl : Nat) : IS_PTE_INVALID (mkL1BlockMap pa fl) = false := by
  rw [IS_PTE_INVALID_eq, mkL1BlockMap_base, set_pte_flags_keeps_valid]
  unfold getBits
  have h : pa / 2 ^ 30 % 2 ^ 18 < 2 ^ 18 := Nat.mod_lt _ (by norm_num)
  norm_num
  omega

theorem mkL1BlockMap_block (pa fl : Nat) : IS_PTE_TABLE (mkL1BlockMap pa fl) = false := by
  rw [IS_PTE_TABLE_eq, mkL1BlockMap_base, set_pte_flags_keeps_type]
  unfold getBits
  have h : pa / 2 ^ 30 % 2 ^ 18 < 2 ^ 18 := Nat.mod_lt _ (by norm_num)
  norm_num
  omega

theorem mkL1BlockMap_addr (pa fl : Nat) :
    getBits (mkL1BlockMap pa fl) 12 36 = pa / 2 ^ 30 % 2 ^ 18 * 2 ^ 18 := by
  rw [mkL1BlockMap_base, set_pte_flags_keeps_addr]
  unfold getBits
  have h : pa / 2 ^ 30 % 2 ^ 18 < 2 ^ 18 := Nat.mod_lt _ (by norm_num)
  norm_num
  omega

theorem mkL2BlockMap_base (pa fl : Nat) :
    mkL2BlockMap pa fl
      = set_pte_flags (1 + pa / 2 ^ 21 % 2 ^ 27 * 2 ^ 21) fl := by
  unfold mkL2BlockMap setBits; norm_num

theorem mkL2BlockMap_valid (pa fl : Nat) : IS_PTE_INVALID (mkL2BlockMap pa fl) = false := by
  rw [IS_PTE_INVALID_eq, mkL2BlockMap_base, set_pte_flags_keeps_valid]
  unfold getBits
  have h : pa / 2 ^ 21 % 2 ^ 27 < 2 ^ 27 := Nat.mod_lt _ (by norm_num)
  norm_num
  omega

theorem mkL2BlockMap_block (pa fl : Nat) : IS_PTE_TABLE (mkL2BlockMap pa fl) = false := by
  rw [IS_PTE_TABLE_eq, mkL2BlockMap_base, set_pte_flags_keeps_type]
  unfold getBits
  have h : pa / 2 ^ 21 % 2 ^ 27 < 2 ^ 27 := Nat.mod_lt _ (by norm_num)
  norm_num
  omega

theorem mkL2BlockMap_addr (pa fl : Nat) :
    getBits (mkL2BlockMap pa fl) 12 36 = pa / 2 ^ 21 % 2 ^ 27 * 2 ^ 9 := by
  rw [mkL2BlockMap_base, set_pte_flags_keeps_addr]
  unfold getBits
  have h : pa / 2 ^ 21 % 2 ^ 27 < 2 ^ 27 := Nat.mod_lt _ (by norm_num)
  norm_num
  omega

theorem mkL3PageHuge_base (pa fl : Nat) :
    mkL3PageHuge pa fl
      = set_pte_flags (1 + pa / 2 ^ 12 % 2 ^ 36 * 2 ^ 12) fl := by
  unfold mkL3PageHuge setBits; norm_num

theorem mkL3PageHuge_valid (pa fl : Nat) : IS_PTE_INVALID (mkL3PageHuge pa fl) = false := by
  rw [IS_PTE_INVALID_eq, mkL3PageHuge_base, set_pte_flags_keeps_valid]
  unfold getBits
  have h : pa / 2 ^ 12 % 2 ^ 36 < 2 ^ 36 := Nat.mod_lt _ (by norm_num)
  norm_num
  omega

theorem mkL3PageHuge_nontable (pa fl : Nat) : IS_PTE_TABLE (mkL3PageHuge pa fl) = false := by
  rw [IS_PTE_TABLE_eq, mkL3PageHuge_base, set_pte_flags_keeps_type]
  unfold getBits
  have h : pa / 2 ^ 12 % 2 ^ 36 < 2 ^ 36 := Nat.mod_lt _ (by norm_num)
  norm_num
  omega

theorem mkL3PageHuge_addr (pa fl : Nat) :
    getBits (mkL3PageHuge pa fl) 12 36 = pa / 2 ^ 12 % 2 ^ 36 := by
  rw [mkL3PageHuge_base, set_pte_flags_keeps_addr]
  unfold getBits
  have h : pa / 2 ^ 12 % 2 ^ 36 < 2 ^ 36 := Nat.mod_lt _ (by norm_num)
  norm_num
  omega


/-! ## Claim C6: the descriptor encoder -/

/-- C6: for every flag set and leaf entry, `set_pte_flags` sets
read-write permission iff WRITE is present (else read-only),
user-execute iff EXEC is present (else user-execute-never),
kernel-execute-never, the access flag and the non-global bit
unconditionally, and exactly one memory type: Device with shareability
forced to zero if DEVICE is present, else Normal-noncacheable if
NOCACHE is present, else Normal-cacheable inner-shareable.  The encoder
is a total function (deterministic, no failure path for user PTEs). -/
theorem C6_set_pte_flags_spec (entry flags : Nat) :
    getBits (set_pte_flags entry flags) 6 2
      = (if flags &&& VMR_WRITE ≠ 0 then AARCH64_MMU_ATTR_PAGE_AP_HIGH_RW_EL0_RW
         else AARCH64_MMU_ATTR_PAGE_AP_HIGH_RO_EL0_RO) ∧
    getBits (set_pte_flags entry flags) 54 1
      = (if flags &&& VMR_EXEC ≠ 0 then AARCH64_MMU_ATTR_PAGE_UX
         else AARCH64_MMU_ATTR_PAGE_UXN) ∧
    getBits (set_pte_flags entry flags) 53 1 = AARCH64_MMU_ATTR_PAGE_PXN ∧
    getBits (set_pte_flags entry flags) 10 1 = AARCH64_MMU_ATTR_PAGE_AF_ACCESSED ∧
    getBits (set_pte_flags entry flags) 11 1 = 1 ∧
    getBits (set_pte_flags entry flags) 2 3
      = (if flags &&& VMR_DEVICE ≠ 0 then DEVICE_MEMORY
         else if flags &&& VMR_NOCACHE ≠ 0 then NORMAL_MEMORY_NOCACHE
         else NORMAL_MEMORY) ∧
    getBits (set_pte_flags entry flags) 8 2
      = (if flags &&& VMR_DEVICE ≠ 0 then 0 else INNER_SHAREABLE) :=
  ⟨set_pte_flags_AP entry flags, set_pte_flags_UXN entry flags,
   set_pte_flags_PXN entry flags, set_pte_flags_AF entry flags,
   set_pte_flags_nG entry flags, set_pte_flags_attr entry flags,
   set_pte_flags_SH entry flags⟩

/-! ## Claim C10: NULL argument to the deallocator -/

/-- C10: `free_page_table` invoked on a NULL root handle is a safe
no-op: the state (memory, allocator counter, freed list) is returned
entirely unchanged, with no frame freed and no memory access made. -/
theorem C10_free_page_table_null (st : MState) : free_page_table st none = st := rfl

/-! ## Claim C3: the sparse unmapper does not terminate -/

theorem unmap_loop_empty_stuck (fuel : Nat) :
    ∀ st va pn, (∀ s, st.mem 0 s = 0) → pn % 2 ^ 27 = 1 →
      unmap_loop fuel st 0 va pn = none := by
  induction fuel with
  | zero =>
    intro st va pn hmem hpn
    have hpn0 : pn ≠ 0 := by intro h; rw [h] at hpn; norm_num at hpn
    simp [unmap_loop, hpn0]
  | succ n ih =>
    intro st va pn hmem hpn
    have hpn0 : pn ≠ 0 := by intro h; rw [h] at hpn; norm_num at hpn
    have hg : get_next_ptp st (some 0) 0 va false = (GNP.noMapping, st) := by
      unfold get_next_ptp
      simp [hmem (getIndex 0 va), IS_PTE_INVALID]
    rw [unmap_loop, if_neg hpn0, hg]
    refine ih st _ _ hmem ?_
    have hdvd : (2 : Nat) ^ 27 ∣ U64 := by
      unfold U64; exact pow_dvd_pow 2 (by norm_num)
    rw [Nat.mod_mod_of_dvd _ hdvd]
    unfold U64 L0_PER_ENTRY_PAGES
    omega

/-- C3: `unmap_range_in_pgtbl` on a tree with no prior mappings does
NOT terminate when the page count is not a multiple of the skipped
span: with one page to unmap and an empty root, the u64 subtraction
`page_num -= L0_PER_ENTRY_PAGES` wraps around (`page_num` stays
congruent to 1 modulo `2 ^ 27`), so `page_num` never reaches 0 and the
`while (page_num > 0)` loop runs forever - no amount of fuel makes the
loop finish. -/
theorem C3_sparse_unmap_diverges :
    (∀ fuel : Nat, unmap_loop fuel (initState 0) 0 0 1 = none) ∧
    unmap_range_in_pgtbl (initState 0) 0 0 PAGE_SIZE = none := by
  constructor
  · intro fuel
    exact unmap_loop_empty_stuck fuel (initState 0) 0 1 (fun _ => rfl) (by norm_num)
  · exact unmap_loop_empty_stuck (pagesOf PAGE_SIZE) (initState 0) 0 (pagesOf PAGE_SIZE)
      (fun _ => rfl) (by norm_num [pagesOf, PAGE_SIZE])

/-! ## Claim C4: the sub-2MB tail of the huge mapper -/

/-- C4 counterexample: mapping a single 4 KB page with
`map_range_in_pgtbl` and with `map_range_in_pgtbl_huge` (a pure
sub-2MB remainder) installs L3 descriptors at the same tree position
(frame 3, slot 0 under the counter allocator) that are NOT bit-for-bit
identical: the page-granularity path sets the page-type discriminator
(bit 1) to 1, the huge path sets it to 0, and the two words agree on
every other bit (overwriting bit 1 of the huge word with 1 yields the
page-path word exactly). -/
theorem C4_l3_discriminator_differs :
    getBits (memOf (map_range_in_pgtbl (initState 0) 0 0 0 PAGE_SIZE
      (VMR_READ ||| VMR_WRITE)) 3 0) 1 1 = 1 ∧
    getBits (memOf (map_range_in_pgtbl_huge (initState 0) 0 0 0 PAGE_SIZE
      (VMR_READ ||| VMR_WRITE)) 3 0) 1 1 = 0 ∧
    memOf (map_range_in_pgtbl (initState 0) 0 0 0 PAGE_SIZE
        (VMR_READ ||| VMR_WRITE)) 3 0
      ≠ memOf (map_range_in_pgtbl_huge (initState 0) 0 0 0 PAGE_SIZE
        (VMR_READ ||| VMR_WRITE)) 3 0 ∧
    setBits (memOf (map_range_in_pgtbl_huge (initState 0) 0 0 0 PAGE_SIZE
        (VMR_READ ||| VMR_WRITE)) 3 0) 1 1 1
      = memOf (map_range_in_pgtbl (initState 0) 0 0 0 PAGE_SIZE
        (VMR_READ ||| VMR_WRITE)) 3 0 := by
  decide


/-! ## Basic lemmas about `frameAt` -/

theorem frameAt_cons (m : Nat → Nat → Nat) (f i : Nat) (p : List Nat) :
    frameAt m f (i :: p) = (childFrame m f i).bind (fun g => frameAt m g p) := by
  cases h : childFrame m f i <;> simp [frameAt, h]

theorem frameAt_append_one (m : Nat → Nat → Nat) (f : Nat) (p : List Nat) (i : Nat) :
    frameAt m f (p ++ [i]) = (frameAt m f p).bind (fun g => childFrame m g i) := by
  induction p generalizing f with
  | nil =>
    cases h : childFrame m f i <;> simp [frameAt, h]
  | cons j q ih =>
    rw [List.cons_append, frameAt_cons, frameAt_cons]
    cases h : childFrame m f j <;> simp [ih]

theorem childFrame_of_valid_table {m : Nat → Nat → Nat} {f i : Nat}
    (h1 : IS_PTE_INVALID (m f i) = false) (h2 : IS_PTE_TABLE (m f i) = true) :
    childFrame m f i = some (getBits (m f i) 12 36) := by
  unfold childFrame
  rw [h1, h2]
  simp

theorem childFrame_of_invalid {m : Nat → Nat → Nat} {f i : Nat}
    (h1 : IS_PTE_INVALID (m f i) = true) :
    childFrame m f i = none := by
  unfold childFrame
  rw [h1]
  simp

theorem childFrame_of_block {m : Nat → Nat → Nat} {f i : Nat}
    (h2 : IS_PTE_TABLE (m f i) = false) :
    childFrame m f i = none := by
  unfold childFrame
  rw [h2]
  simp

theorem childFrame_congr {m m2 : Nat → Nat → Nat} {f : Nat} (i : Nat)
    (h : ∀ t, m2 f t = m f t) : childFrame m2 f i = childFrame m f i := by
  unfold childFrame
  rw [h i]

/-- Congruence for `frameAt`: if every frame visited strictly before the
end of the path has an unchanged row, the walk is unchanged. -/
theorem frameAt_congr {m m2 : Nat → Nat → Nat} {root : Nat} (p : List Nat)
    (h : ∀ q1 q2 g, p = q1 ++ q2 → q2 ≠ [] → frameAt m root q1 = some g →
      ∀ t, m2 g t = m g t) :
    frameAt m2 root p = frameAt m root p := by
  induction p generalizing root with
  | nil => rfl
  | cons i q ih =>
    have hroot : ∀ t, m2 root t = m root t :=
      h [] (i :: q) root rfl (by simp) rfl
    rw [frameAt_cons, frameAt_cons, childFrame_congr i hroot]
    cases hc : childFrame m root i with
    | none => rfl
    | some g =>
      show frameAt m2 g q = frameAt m g q
      refine ih ?_
      intro q1 q2 g2 he hne hfa
      refine h (i :: q1) q2 g2 (by rw [he, List.cons_append]) hne ?_
      rw [frameAt_cons, hc]
      exact hfa

theorem goodPath_append {p : List Nat} {i : Nat} (hp : p.length ≤ 2)
    (hip : ∀ j ∈ p, j < 512) (hi : i < 512) : goodPath (p ++ [i]) := by
  constructor
  · simp [List.length_append]; omega
  · intro j hj
    rcases List.mem_append.mp hj with h | h
    · exact hip j h
    · simp at h; omega

/-- A fresh root (zero-filled root frame below the allocator counter)
satisfies the tree invariants. -/
theorem Inv_init {st : MState} {root : Nat}
    (hz : ∀ s, s < 512 → st.mem root s = 0) (hr : root < st.next) :
    Inv st.mem st.next root ∧ NoBlock st.mem root := by
  have hpaths : ∀ p f, goodPath p → frameAt st.mem root p = some f → p = [] ∧ f = root := by
    intro p f hp hf
    cases p with
    | nil => simp [frameAt] at hf; exact ⟨rfl, hf.symm⟩
    | cons i q =>
      rw [frameAt_cons] at hf
      have hi : i < 512 := hp.2 i (by simp)
      rw [childFrame_of_invalid (by rw [hz i hi]; rfl)] at hf
      simp at hf
  refine ⟨⟨hr, ?_, ?_⟩, ?_⟩
  · intro p f hp hf
    rcases hpaths p f hp hf with ⟨_, rfl⟩
    exact hr
  · intro p q f hp hq hpf hqf
    rcases hpaths p f hp hpf with ⟨rfl, _⟩
    rcases hpaths q f hq hqf with ⟨rfl, _⟩
    rfl
  · intro p f hlen hidx hf s hs hv
    rcases hpaths p f ⟨by omega, hidx⟩ hf with ⟨_, rfl⟩
    rw [hz s hs] at hv
    simp [IS_PTE_INVALID] at hv


/-! ## State-update reading lemmas -/

theorem writePte_mem (st : MState) (f s v g t : Nat) :
    (writePte st f s v).mem g t = if g = f ∧ t = s then v else st.mem g t := by
  unfold writePte
  by_cases h1 : g = f <;> by_cases h2 : t = s <;> simp [h1, h2]

theorem writePte_next (st : MState) (f s v : Nat) : (writePte st f s v).next = st.next := rfl

theorem writePte_allocs (st : MState) (f s v : Nat) :
    (writePte st f s v).allocs = st.allocs := rfl

theorem allocPtp_mem (st : MState) (g t : Nat) :
    (allocPtp st).2.mem g t = if g = st.next then 0 else st.mem g t := rfl

theorem allocPtp_fst (st : MState) : (allocPtp st).1 = st.next := rfl

theorem installTable_mem (st : MState) (f idx g t : Nat) :
    (installTable st f idx).mem g t
      = if g = f ∧ t = idx then tablePte st.next
        else if g = st.next then 0 else st.mem g t := by
  unfold installTable
  rw [writePte_mem, allocPtp_mem]

theorem installTable_next (st : MState) (f idx : Nat) :
    (installTable st f idx).next = st.next + 1 := rfl

theorem installTable_allocs (st : MState) (f idx : Nat) :
    (installTable st f idx).allocs = st.allocs + 1 := rfl

theorem installTable_freed (st : MState) (f idx : Nat) :
    (installTable st f idx).freed = st.freed := rfl

/-! ## Single-step lemmas for `get_next_ptp` -/

theorem gnp_false_invalid {st : MState} {c l va : Nat}
    (h : IS_PTE_INVALID (st.mem c (getIndex l va)) = true) :
    get_next_ptp st (some c) l va false = (GNP.noMapping, st) := by
  unfold get_next_ptp
  simp [h]

theorem gnp_false_valid {st : MState} {c l va : Nat}
    (h : IS_PTE_INVALID (st.mem c (getIndex l va)) = false) :
    get_next_ptp st (some c) l va false
      = (GNP.found (IS_PTE_TABLE (st.mem c (getIndex l va)))
          (getBits (st.mem c (getIndex l va)) 12 36) c (getIndex l va), st) := by
  unfold get_next_ptp
  simp [h]

theorem gnp_true_valid {st : MState} {c l va : Nat}
    (h : IS_PTE_INVALID (st.mem c (getIndex l va)) = false) :
    get_next_ptp st (some c) l va true
      = (GNP.found (IS_PTE_TABLE (st.mem c (getIndex l va)))
          (getBits (st.mem c (getIndex l va)) 12 36) c (getIndex l va), st) := by
  unfold get_next_ptp
  simp [h]

theorem gnp_true_invalid {st : MState} {c l va : Nat}
    (h : IS_PTE_INVALID (st.mem c (getIndex l va)) = true) :
    get_next_ptp st (some c) l va true
      = (GNP.found true (st.next % 2 ^ 36) c (getIndex l va), installTable st c (getIndex l va)) := by
  unfold get_next_ptp installTable
  simp [h, tablePte_table, tablePte_addr, allocPtp_fst]

/-! ## Path lemmas -/

theorem goodPath_append_left {c q : List Nat} (h : goodPath (c ++ q)) : goodPath c := by
  obtain ⟨h1, h2⟩ := h
  constructor
  · rw [List.length_append] at h1; omega
  · intro i hi; exact h2 i (List.mem_append.mpr (Or.inl hi))

theorem goodPath_shift {c q : List Nat} {i : Nat} (h : goodPath (c ++ i :: q)) :
    goodPath ((c ++ [i]) ++ q) := by
  rw [List.append_assoc, List.singleton_append]
  exact h

/-! ## Effect of installing a table descriptor on the tree view

In the lemmas below the tree at `root` satisfies `Inv`, frame `f` is
reachable at path `p`, and slot `idx` of `f` is invalid; `installTable`
allocates the fresh frame `st.next` and publishes a table descriptor to
it in that slot. -/

theorem install_frameAt_old {st : MState} {root f idx : Nat}
    (hInv : Inv st.mem st.next root)
    (hie : IS_PTE_INVALID (st.mem f idx) = true) :
    ∀ q c g0 g, frameAt st.mem root c = some g0 → goodPath (c ++ q) →
      frameAt st.mem g0 q = some g →
      frameAt (installTable st f idx).mem g0 q = some g := by
  intro q
  induction q with
  | nil => intro c g0 g _ _ h; exact h
  | cons i q2 ih =>
    intro c g0 g hc hgood hq
    rw [frameAt_cons] at hq
    cases hcf : childFrame st.mem g0 i with
    | none => rw [hcf] at hq; simp at hq
    | some g1 =>
      rw [hcf] at hq
      simp only [Option.some_bind] at hq
      have hg0lt : g0 < st.next := hInv.lt c g0 (goodPath_append_left hgood) hc
      have hne : ¬(g0 = f ∧ i = idx) := by
        rintro ⟨rfl, rfl⟩
        rw [childFrame_of_invalid hie] at hcf
        exact Option.noConfusion hcf
      have hrow : (installTable st f idx).mem g0 i = st.mem g0 i := by
        rw [installTable_mem]
        rw [if_neg hne, if_neg (by omega)]
      have hcf2 : childFrame (installTable st f idx).mem g0 i = some g1 := by
        unfold childFrame at hcf ⊢
        rw [hrow]
        exact hcf
      rw [frameAt_cons, hcf2]
      simp only [Option.some_bind]
      refine ih (c ++ [i]) g1 g ?_ (goodPath_shift hgood) hq
      rw [frameAt_append_one, hc]
      simp only [Option.some_bind]
      exact hcf

theorem install_frameAt_back {st : MState} {root f idx : Nat}
    (hInv : Inv st.mem st.next root)
    (hn36 : st.next < 2 ^ 36) :
    ∀ q c g0 g, frameAt st.mem root c = some g0 → goodPath (c ++ q) →
      frameAt (installTable st f idx).mem g0 q = some g →
      frameAt st.mem g0 q = some g ∨ g = st.next := by
  intro q
  induction q with
  | nil => intro c g0 g _ _ h; exact Or.inl h
  | cons i q2 ih =>
    intro c g0 g hc hgood hq
    rw [frameAt_cons] at hq
    have hg0lt : g0 < st.next := hInv.lt c g0 (goodPath_append_left hgood) hc
    by_cases hcase : g0 = f ∧ i = idx
    · have hrow : (installTable st f idx).mem g0 i = tablePte st.next := by
        rw [installTable_mem, if_pos hcase]
      have hcf2 : childFrame (installTable st f idx).mem g0 i = some st.next := by
        unfold childFrame
        rw [hrow, tablePte_valid, tablePte_table, tablePte_addr, Nat.mod_eq_of_lt hn36]
        simp
      rw [hcf2] at hq
      simp only [Option.some_bind] at hq
      cases q2 with
      | nil =>
        simp [frameAt] at hq
        exact Or.inr hq.symm
      | cons i2 q3 =>
        rw [frameAt_cons] at hq
        have hz : (installTable st f idx).mem st.next i2 = 0 := by
          rw [installTable_mem]
          rw [if_neg (by rintro ⟨h1, _⟩; rw [← hcase.1] at h1; omega), if_pos rfl]
        rw [childFrame_of_invalid (by rw [hz]; rfl)] at hq
        simp at hq
    · have hrow : (installTable st f idx).mem g0 i = st.mem g0 i := by
        rw [installTable_mem, if_neg hcase, if_neg (by omega)]
      cases hcf : childFrame st.mem g0 i with
      | none =>
        have : childFrame (installTable st f idx).mem g0 i = none := by
          unfold childFrame at hcf ⊢
          rw [hrow]; exact hcf
        rw [this] at hq; simp at hq
      | some g1 =>
        have hcf2 : childFrame (installTable st f idx).mem g0 i = some g1 := by
          unfold childFrame at hcf ⊢
          rw [hrow]; exact hcf
        rw [hcf2] at hq
        simp only [Option.some_bind] at hq
        have hc2 : frameAt st.mem root (c ++ [i]) = some g1 := by
          rw [frameAt_append_one, hc]
          simp only [Option.some_bind]
          exact hcf
        rcases ih (c ++ [i]) g1 g hc2 (goodPath_shift hgood) hq with h | h
        · left
          rw [frameAt_cons, hcf]
          simpa using h
        · exact Or.inr h

theorem install_frameAt_target {st : MState} {root f idx : Nat} {p : List Nat}
    (hInv : Inv st.mem st.next root)
    (hgp : goodPath p)
    (hf : frameAt st.mem root p = some f)
    (hn36 : st.next < 2 ^ 36) :
    ∀ q c g0, frameAt st.mem root c = some g0 → goodPath (c ++ q) →
      frameAt (installTable st f idx).mem g0 q = some st.next →
      c ++ q = p ++ [idx] := by
  intro q
  induction q with
  | nil =>
    intro c g0 hc hgood hq
    simp [frameAt] at hq
    have := hInv.lt c g0 (goodPath_append_left hgood) hc
    omega
  | cons i q2 ih =>
    intro c g0 hc hgood hq
    rw [frameAt_cons] at hq
    have hg0lt : g0 < st.next := hInv.lt c g0 (goodPath_append_left hgood) hc
    by_cases hcase : g0 = f ∧ i = idx
    · have hf2 : frameAt st.mem root p = some g0 := by
        rw [hcase.1]; exact hf
      have hcp : c = p :=
        hInv.inj c p g0 (goodPath_append_left hgood) hgp hc hf2
      have hrow : (installTable st f idx).mem g0 i = tablePte st.next := by
        rw [installTable_mem, if_pos hcase]
      have hcf2 : childFrame (installTable st f idx).mem g0 i = some st.next := by
        unfold childFrame
        rw [hrow, tablePte_valid, tablePte_table, tablePte_addr, Nat.mod_eq_of_lt hn36]
        simp
      rw [hcf2] at hq
      simp only [Option.some_bind] at hq
      cases q2 with
      | nil => rw [hcp, hcase.2]
      | cons i2 q3 =>
        rw [frameAt_cons] at hq
        have hz : (installTable st f idx).mem st.next i2 = 0 := by
          rw [installTable_mem]
          rw [if_neg (by rintro ⟨h1, _⟩; rw [← hcase.1] at h1; omega), if_pos rfl]
        rw [childFrame_of_invalid (by rw [hz]; rfl)] at hq
        simp at hq
    · have hrow : (installTable st f idx).mem g0 i = st.mem g0 i := by
        rw [installTable_mem, if_neg hcase, if_neg (by omega)]
      cases hcf : childFrame st.mem g0 i with
      | none =>
        have : childFrame (installTable st f idx).mem g0 i = none := by
          unfold childFrame at hcf ⊢
          rw [hrow]; exact hcf
        rw [this] at hq; simp at hq
      | some g1 =>
        have hcf2 : childFrame (installTable st f idx).mem g0 i = some g1 := by
          unfold childFrame at hcf ⊢
          rw [hrow]; exact hcf
        rw [hcf2] at hq
        simp only [Option.some_bind] at hq
        have hc2 : frameAt st.mem root (c ++ [i]) = some g1 := by
          rw [frameAt_append_one, hc]
          simp only [Option.some_bind]
          exact hcf
        have := ih (c ++ [i]) g1 hc2 (goodPath_shift hgood) hq
        rw [← this, List.append_assoc, List.singleton_append]


theorem install_frameAt_path {st : MState} {root f idx : Nat} {p : List Nat}
    (hInv : Inv st.mem st.next root)
    (hgp : goodPath p)
    (hf : frameAt st.mem root p = some f)
    (hie : IS_PTE_INVALID (st.mem f idx) = true)
    (hn36 : st.next < 2 ^ 36) :
    frameAt (installTable st f idx).mem root (p ++ [idx]) = some st.next := by
  have h1 : frameAt (installTable st f idx).mem root p = some f :=
    install_frameAt_old hInv hie p [] root f rfl (by simpa using hgp) hf
  have hrow : (installTable st f idx).mem f idx = tablePte st.next := by
    rw [installTable_mem, if_pos (And.intro rfl rfl)]
  rw [frameAt_append_one, h1]
  simp only [Option.some_bind]
  rw [childFrame_of_valid_table (by rw [hrow]; exact tablePte_valid _)
    (by rw [hrow]; exact tablePte_table _), hrow, tablePte_addr, Nat.mod_eq_of_lt hn36]

theorem install_Inv {st : MState} {root f idx : Nat} {p : List Nat}
    (hInv : Inv st.mem st.next root)
    (hgp : goodPath p)
    (hf : frameAt st.mem root p = some f)
    (hn36 : st.next < 2 ^ 36) :
    Inv (installTable st f idx).mem (st.next + 1) root := by
  refine ⟨by have := hInv.root_lt; omega, ?_, ?_⟩
  · intro q g hq hfq
    rcases install_frameAt_back hInv hn36 q [] root g rfl (by simpa using hq) hfq with h | h
    · have := hInv.lt q g hq h; omega
    · omega
  · intro q1 q2 g hq1 hq2 h1 h2
    rcases install_frameAt_back hInv hn36 q1 [] root g rfl (by simpa using hq1) h1 with ha | ha
    · rcases install_frameAt_back hInv hn36 q2 [] root g rfl (by simpa using hq2) h2 with hb | hb
      · exact hInv.inj q1 q2 g hq1 hq2 ha hb
      · rw [hb] at ha
        have := hInv.lt q1 st.next hq1 ha
        omega
    · rw [ha] at h1 h2
      have e1 := install_frameAt_target hInv hgp hf hn36 q1 [] root rfl (by simpa using hq1) h1
      have e2 := install_frameAt_target hInv hgp hf hn36 q2 [] root rfl (by simpa using hq2) h2
      rw [List.nil_append] at e1 e2
      rw [e1, e2]

theorem install_NoBlock {st : MState} {root f idx : Nat} {p : List Nat}
    (hInv : Inv st.mem st.next root)
    (hgp : goodPath p)
    (hf : frameAt st.mem root p = some f)
    (hn36 : st.next < 2 ^ 36)
    (hnb : NoBlock st.mem root) :
    NoBlock (installTable st f idx).mem root := by
  intro q g hlen hqidx hfq s hs hvalid
  have hflt : f < st.next := hInv.lt p f hgp hf
  have hqgood : goodPath q := ⟨by omega, hqidx⟩
  rcases install_frameAt_back hInv hn36 q [] root g rfl (by simpa using hqgood) hfq with h | h
  · by_cases hcase : g = f ∧ s = idx
    · have hrow : (installTable st f idx).mem g s = tablePte st.next := by
        rw [installTable_mem, if_pos hcase]
      rw [hrow, tablePte_table]
    · have hglt : g < st.next := hInv.lt q g hqgood h
      have hrow : (installTable st f idx).mem g s = st.mem g s := by
        rw [installTable_mem, if_neg hcase, if_neg (by omega)]
      rw [hrow] at hvalid ⊢
      exact hnb q g hlen hqidx h s hs hvalid
  · have hrow : (installTable st f idx).mem g s = 0 := by
      rw [installTable_mem, if_neg (by rintro ⟨h1, _⟩; omega), if_pos h]
    rw [hrow] at hvalid
    simp [IS_PTE_INVALID] at hvalid

/-! ## Effect of a write inside a depth-3 frame on the tree view -/

theorem frameAt_write_deep {st : MState} {root f3 : Nat} {p3 : List Nat} (s v : Nat)
    (hInv : Inv st.mem st.next root)
    (hgp : goodPath p3) (hlen3 : p3.length = 3)
    (hf : frameAt st.mem root p3 = some f3) :
    ∀ q, goodPath q → frameAt (writePte st f3 s v).mem root q = frameAt st.mem root q := by
  intro q hq
  refine frameAt_congr q ?_
  intro q1 q2 g he hne hfa t
  rw [writePte_mem]
  refine if_neg ?_
  rintro ⟨rfl, _⟩
  have hq1 : goodPath q1 := goodPath_append_left (he ▸ hq)
  have heq : q1 = p3 := hInv.inj q1 p3 g hq1 hgp hfa hf
  have hlq : q.length = 3 + q2.length := by
    rw [he, heq, List.length_append, hlen3]
  have hq2 : 0 < q2.length := List.length_pos.mpr hne
  have := hq.1
  omega

theorem Inv_of_frameAt_eq {m m2 : Nat → Nat → Nat} {next root : Nat}
    (h : ∀ q, goodPath q → frameAt m2 root q = frameAt m root q)
    (hInv : Inv m next root) : Inv m2 next root := by
  refine ⟨hInv.root_lt, ?_, ?_⟩
  · intro p f hp hf
    rw [h p hp] at hf
    exact hInv.lt p f hp hf
  · intro p q f hp hq h1 h2
    rw [h p hp] at h1
    rw [h q hq] at h2
    exact hInv.inj p q f hp hq h1 h2

theorem NoBlock_write_deep {st : MState} {root f3 : Nat} {p3 : List Nat} (s v : Nat)
    (hInv : Inv st.mem st.next root)
    (hgp : goodPath p3) (hlen3 : p3.length = 3)
    (hf : frameAt st.mem root p3 = some f3)
    (hnb : NoBlock st.mem root) :
    NoBlock (writePte st f3 s v).mem root := by
  intro q g hlen hqidx hfq t ht hvalid
  have hqgood : goodPath q := ⟨by omega, hqidx⟩
  rw [frameAt_write_deep s v hInv hgp hlen3 hf q hqgood] at hfq
  have hrow : (writePte st f3 s v).mem g t = st.mem g t := by
    rw [writePte_mem]
    refine if_neg ?_
    rintro ⟨rfl, _⟩
    have heq : q = p3 := hInv.inj q p3 g hqgood hgp hfq hf
    rw [heq, hlen3] at hlen
    omega
  rw [hrow] at hvalid ⊢
  exact hnb q g hlen hqidx hfq t ht hvalid


/-! ## One walker step with allocation, on a well-formed tree -/

theorem walk_alloc_spec {st : MState} {root f : Nat} {p : List Nat} (l va : Nat)
    (hInv : Inv st.mem st.next root)
    (hnb : NoBlock st.mem root)
    (hgp : goodPath p) (hplen : p.length ≤ 2)
    (hf : frameAt st.mem root p = some f)
    (hn36 : st.next < 2 ^ 36)
    (hidx : getIndex l va < 512) :
    ∃ f2 st2,
      get_next_ptp st (some f) l va true
        = (GNP.found true f2 f (getIndex l va), st2) ∧
      frameAt st2.mem root (p ++ [getIndex l va]) = some f2 ∧
      Inv st2.mem st2.next root ∧ NoBlock st2.mem root ∧
      st.next ≤ st2.next ∧ st2.next ≤ st.next + 1 ∧
      st2.allocs + st.next = st.allocs + st2.next ∧
      st2.freed = st.freed ∧
      (∀ q g, goodPath q → frameAt st.mem root q = some g →
        frameAt st2.mem root q = some g) ∧
      (∀ q g, goodPath q → frameAt st2.mem root q = some g →
        frameAt st.mem root q = some g ∨ (st.next ≤ g ∧ g < st2.next)) ∧
      (∀ g t, g < st.next → st2.mem g t ≠ st.mem g t →
        IS_PTE_INVALID (st.mem g t) = true) := by
  by_cases hie : IS_PTE_INVALID (st.mem f (getIndex l va)) = true
  · refine ⟨st.next, installTable st f (getIndex l va), ?_, ?_, ?_, ?_, ?_, ?_, ?_, ?_, ?_, ?_, ?_⟩
    · rw [gnp_true_invalid hie, Nat.mod_eq_of_lt hn36]
    · exact install_frameAt_path hInv hgp hf hie hn36
    · rw [installTable_next]
      exact install_Inv hInv hgp hf hn36
    · exact install_NoBlock hInv hgp hf hn36 hnb
    · rw [installTable_next]; omega
    · rw [installTable_next]
    · rw [installTable_next, installTable_allocs]; omega
    · exact installTable_freed st f (getIndex l va)
    · intro q g hq hfq
      exact install_frameAt_old hInv hie q [] root g rfl (by simpa using hq) hfq
    · intro q g hq hfq
      rcases install_frameAt_back hInv hn36 q [] root g rfl (by simpa using hq) hfq with h | h
      · exact Or.inl h
      · right
        rw [installTable_next]
        omega
    · intro g t hg hne
      rw [installTable_mem] at hne
      by_cases hc : g = f ∧ t = getIndex l va
      · obtain ⟨rfl, rfl⟩ := hc
        exact hie
      · rw [if_neg hc, if_neg (by omega)] at hne
        exact absurd rfl hne
  · have hie2 : IS_PTE_INVALID (st.mem f (getIndex l va)) = false := by
      cases h : IS_PTE_INVALID (st.mem f (getIndex l va))
      · rfl
      · exact absurd h hie
    have htab : IS_PTE_TABLE (st.mem f (getIndex l va)) = true :=
      hnb p f hplen hgp.2 hf (getIndex l va) (by omega) hie2
    refine ⟨getBits (st.mem f (getIndex l va)) 12 36, st, ?_, ?_, hInv, hnb, le_refl _,
      by omega, by omega, rfl, fun q g _ h => h, fun q g _ h => Or.inl h,
      fun g t _ h => absurd rfl h⟩
    · rw [gnp_true_valid hie2, htab]
    · rw [frameAt_append_one, hf]
      simp only [Option.some_bind]
      exact childFrame_of_valid_table hie2 htab

theorem idx_lt_512 (va : Nat) : ∀ l, getIndex l va < 512 := by
  intro l
  match l with
  | 0 => exact Nat.mod_lt _ (by norm_num)
  | 1 => exact Nat.mod_lt _ (by norm_num)
  | 2 => exact Nat.mod_lt _ (by norm_num)
  | 3 => exact Nat.mod_lt _ (by norm_num)
  | (n + 4) =>
    show (0 : Nat) < 512
    norm_num


/-! ## Three-level descend of the page-granularity mapper -/

theorem descend3_spec {st : MState} {root : Nat} (va : Nat)
    (hInv : Inv st.mem st.next root)
    (hnb : NoBlock st.mem root)
    (hn36 : st.next + 3 ≤ 2 ^ 36) :
    ∃ n0 st0 n1 st1 n2 st2,
      get_next_ptp st (some root) 0 va true
        = (GNP.found true n0 root (GET_L0_INDEX va), st0) ∧
      get_next_ptp st0 (some n0) 1 va true
        = (GNP.found true n1 n0 (GET_L1_INDEX va), st1) ∧
      get_next_ptp st1 (some n1) 2 va true
        = (GNP.found true n2 n1 (GET_L2_INDEX va), st2) ∧
      frameAt st2.mem root (path3 va) = some n2 ∧
      Inv st2.mem st2.next root ∧ NoBlock st2.mem root ∧
      st.next ≤ st2.next ∧ st2.next ≤ st.next + 3 ∧
      st2.allocs + st.next = st.allocs + st2.next ∧
      st2.freed = st.freed ∧
      (∀ q g, goodPath q → frameAt st.mem root q = some g →
        frameAt st2.mem root q = some g) ∧
      (∀ q g, goodPath q → frameAt st2.mem root q = some g →
        frameAt st.mem root q = some g ∨ (st.next ≤ g ∧ g < st2.next)) ∧
      (∀ g t, g < st.next → st2.mem g t ≠ st.mem g t →
        IS_PTE_INVALID (st.mem g t) = true) := by
  have hgp0 : goodPath ([] : List Nat) := ⟨by simp, by simp⟩
  obtain ⟨n0, st0, he0, hfa0, hInv0, hnb0, hle0, hle0b, hal0, hfr0, hpres0, hback0, hmc0⟩ :=
    walk_alloc_spec 0 va hInv hnb hgp0 (by simp) rfl (by omega) (idx_lt_512 va 0)
  have hgp1 : goodPath [GET_L0_INDEX va] := by
    refine ⟨by simp, ?_⟩
    intro j hj
    simp at hj
    rw [hj]
    exact idx_lt_512 va 0
  obtain ⟨n1, st1, he1, hfa1, hInv1, hnb1, hle1, hle1b, hal1, hfr1, hpres1, hback1, hmc1⟩ :=
    walk_alloc_spec 1 va hInv0 hnb0 hgp1 (by simp) (by simpa using hfa0)
      (by omega) (idx_lt_512 va 1)
  have hgp2 : goodPath [GET_L0_INDEX va, GET_L1_INDEX va] := by
    refine ⟨by simp, ?_⟩
    intro j hj
    simp at hj
    rcases hj with h | h <;> rw [h]
    · exact idx_lt_512 va 0
    · exact idx_lt_512 va 1
  obtain ⟨n2, st2, he2, hfa2, hInv2, hnb2, hle2, hle2b, hal2, hfr2, hpres2, hback2, hmc2⟩ :=
    walk_alloc_spec 2 va hInv1 hnb1 hgp2 (by simp) (by simpa using hfa1)
      (by omega) (idx_lt_512 va 2)
  refine ⟨n0, st0, n1, st1, n2, st2, he0, he1, he2, by simpa [path3] using hfa2,
    hInv2, hnb2, by omega, by omega, by omega,
    by rw [hfr2, hfr1, hfr0], ?_, ?_, ?_⟩
  · intro q g hq hfq
    exact hpres2 q g hq (hpres1 q g hq (hpres0 q g hq hfq))
  · intro q g hq hfq
    rcases hback2 q g hq hfq with h | h
    · rcases hback1 q g hq h with h2 | h2
      · rcases hback0 q g hq h2 with h3 | h3
        · exact Or.inl h3
        · exact Or.inr ⟨h3.1, by omega⟩
      · exact Or.inr ⟨by omega, by omega⟩
    · exact Or.inr ⟨by omega, by omega⟩
  · intro g t hg hne
    by_cases h0 : st0.mem g t = st.mem g t
    · by_cases h1 : st1.mem g t = st0.mem g t
      · have h2 : st2.mem g t ≠ st1.mem g t := by
          intro h
          exact hne (by rw [h, h1, h0])
        have := hmc2 g t (by omega) h2
        rw [h1, h0] at this
        exact this
      · have := hmc1 g t (by omega) h1
        rw [h0] at this
        exact this
    · exact hmc0 g t hg h0


/-! ## Virtual-address index arithmetic -/

theorem u64_small {a : Nat} (h : a ≤ 2 ^ 48) : a % U64 = a := by
  apply Nat.mod_eq_of_lt
  unfold U64
  have : (2 : Nat) ^ 48 < 2 ^ 64 := by norm_num
  omega

theorem l3_index_add {va : Nat} (k : Nat) (hva : va % PAGE_SIZE = 0)
    (hk : GET_L3_INDEX va + k < 512) :
    GET_L3_INDEX (va + k * PAGE_SIZE) = GET_L3_INDEX va + k ∧
    GET_L0_INDEX (va + k * PAGE_SIZE) = GET_L0_INDEX va ∧
    GET_L1_INDEX (va + k * PAGE_SIZE) = GET_L1_INDEX va ∧
    GET_L2_INDEX (va + k * PAGE_SIZE) = GET_L2_INDEX va := by
  unfold GET_L3_INDEX GET_L0_INDEX GET_L1_INDEX GET_L2_INDEX PAGE_SIZE at *
  norm_num at *
  omega

theorem page_decomp {v : Nat} (hv : v < 2 ^ 48) :
    v / 4096 = GET_L0_INDEX v * 2 ^ 27 + GET_L1_INDEX v * 2 ^ 18
      + GET_L2_INDEX v * 2 ^ 9 + GET_L3_INDEX v := by
  unfold GET_L3_INDEX GET_L0_INDEX GET_L1_INDEX GET_L2_INDEX at *
  norm_num at *
  omega

theorem page_index_inj {v w : Nat} (hv : v < 2 ^ 48) (hw : w < 2 ^ 48)
    (hva : v % 4096 = 0) (hwa : w % 4096 = 0)
    (h0 : GET_L0_INDEX v = GET_L0_INDEX w) (h1 : GET_L1_INDEX v = GET_L1_INDEX w)
    (h2 : GET_L2_INDEX v = GET_L2_INDEX w) (h3 : GET_L3_INDEX v = GET_L3_INDEX w) :
    v = w := by
  have dv := page_decomp hv
  have dw := page_decomp hw
  rw [h0, h1, h2, h3] at dv
  omega

theorem path3_eq_iff {v w : Nat} :
    path3 v = path3 w ↔ (GET_L0_INDEX v = GET_L0_INDEX w ∧
      GET_L1_INDEX v = GET_L1_INDEX w ∧ GET_L2_INDEX v = GET_L2_INDEX w) := by
  unfold path3
  simp

theorem goodPath_path3 (v : Nat) : goodPath (path3 v) := by
  refine ⟨by simp [path3], ?_⟩
  intro i hi
  simp [path3] at hi
  rcases hi with h | h | h <;> rw [h]
  · exact Nat.mod_lt _ (by norm_num)
  · exact Nat.mod_lt _ (by norm_num)
  · exact Nat.mod_lt _ (by norm_num)


/-! ## The L3 fill loop of the page-granularity mapper -/

theorem map_l3_loop_spec :
    ∀ (slots : Nat) (st : MState) (root l3f i va pa flags pn : Nat) (p3 : List Nat),
      goodPath p3 → p3.length = 3 →
      frameAt st.mem root p3 = some l3f →
      Inv st.mem st.next root → NoBlock st.mem root →
      va + pn * PAGE_SIZE ≤ 2 ^ 48 →
      pa + pn * PAGE_SIZE ≤ 2 ^ 48 →
      (0 < pn ∨ slots = 0) →
      ∃ st2,
        map_l3_loop slots st l3f i va pa flags pn
          = (st2, va + min slots pn * PAGE_SIZE, pa + min slots pn * PAGE_SIZE,
             pn - min slots pn) ∧
        st2.next = st.next ∧ st2.allocs = st.allocs ∧ st2.freed = st.freed ∧
        (∀ q, goodPath q → frameAt st2.mem root q = frameAt st.mem root q) ∧
        Inv st2.mem st2.next root ∧ NoBlock st2.mem root ∧
        (∀ k, k < min slots pn →
          st2.mem l3f (i + k) = mkL3PageMap (pa + k * PAGE_SIZE) flags) ∧
        (∀ g t, st2.mem g t ≠ st.mem g t → g = l3f ∧ i ≤ t ∧ t < i + min slots pn) := by
  intro slots
  induction slots with
  | zero =>
    intro st root l3f i va pa flags pn p3 hgp hlen3 hfp hInv hnb hva hpa hpn
    refine ⟨st, ?_, rfl, rfl, rfl, fun q _ => rfl, hInv, hnb, ?_, ?_⟩
    · show (st, va, pa, pn) = _
      simp
    · intro k hk
      simp at hk
    · intro g t h
      exact absurd rfl h
  | succ slots ih =>
    intro st root l3f i va pa flags pn p3 hgp hlen3 hfp hInv hnb hva hpa hpn
    have hpn1 : 0 < pn := by
      rcases hpn with h | h
      · exact h
      · exact absurd h (by omega)
    have hva1 : (va + PAGE_SIZE) % U64 = va + PAGE_SIZE := by
      apply u64_small
      unfold PAGE_SIZE at *
      omega
    have hpa1 : (pa + PAGE_SIZE) % U64 = pa + PAGE_SIZE := by
      apply u64_small
      unfold PAGE_SIZE at *
      omega
    set st1 := writePte st l3f i (mkL3PageMap pa flags) with hst1
    have hfp1 : frameAt st1.mem root p3 = some l3f := by
      rw [hst1, frameAt_write_deep i (mkL3PageMap pa flags) hInv hgp hlen3 hfp p3 hgp, hfp]
    have hInv1 : Inv st1.mem st1.next root := by
      rw [hst1]
      exact Inv_of_frameAt_eq
        (fun q hq => frameAt_write_deep i (mkL3PageMap pa flags) hInv hgp hlen3 hfp q hq) hInv
    have hnb1 : NoBlock st1.mem root :=
      NoBlock_write_deep i (mkL3PageMap pa flags) hInv hgp hlen3 hfp hnb
    by_cases hz : pn - 1 = 0
    · have hpn2 : pn = 1 := by omega
      refine ⟨st1, ?_, rfl, rfl, rfl,
        fun q hq => frameAt_write_deep i (mkL3PageMap pa flags) hInv hgp hlen3 hfp q hq,
        hInv1, hnb1, ?_, ?_⟩
      · show map_l3_loop (slots + 1) st l3f i va pa flags pn = _
        rw [map_l3_loop]
        simp only [hva1, hpa1, hz, if_pos rfl]
        rw [hpn2]
        simp
      · intro k hk
        rw [hpn2] at hk
        simp at hk
        rw [hk]
        simp [hst1, writePte_mem]
      · intro g t h
        rw [hst1, writePte_mem] at h
        by_cases hc : g = l3f ∧ t = i
        · rw [hpn2]
          refine ⟨hc.1, by omega, by omega⟩
        · rw [if_neg hc] at h
          exact absurd rfl h
    · have hrec := ih st1 root l3f (i + 1) (va + PAGE_SIZE) (pa + PAGE_SIZE) flags (pn - 1)
        p3 hgp hlen3 hfp1 hInv1 hnb1
        (by unfold PAGE_SIZE at *; omega) (by unfold PAGE_SIZE at *; omega)
        (Or.inl (by omega))
      obtain ⟨st2, heq, hn2, ha2, hf2, hfa2, hInv2, hnb2, hmem2, hch2⟩ := hrec
      have hmin : min (slots + 1) pn = 1 + min slots (pn - 1) := by omega
      refine ⟨st2, ?_, by rw [hn2, hst1]; rfl, by rw [ha2, hst1]; rfl,
        by rw [hf2, hst1]; rfl, ?_, hInv2, hnb2, ?_, ?_⟩
      · show map_l3_loop (slots + 1) st l3f i va pa flags pn = _
        rw [map_l3_loop]
        simp only [hva1, hpa1, if_neg hz]
        rw [heq, hmin]
        have e1 : va + PAGE_SIZE + min slots (pn - 1) * PAGE_SIZE
            = va + (1 + min slots (pn - 1)) * PAGE_SIZE := by ring
        have e2 : pa + PAGE_SIZE + min slots (pn - 1) * PAGE_SIZE
            = pa + (1 + min slots (pn - 1)) * PAGE_SIZE := by ring
        have e3 : pn - 1 - min slots (pn - 1) = pn - (1 + min slots (pn - 1)) := by omega
        rw [e1, e2, e3]
      · intro q hq
        rw [hfa2 q hq, hst1,
          frameAt_write_deep i (mkL3PageMap pa flags) hInv hgp hlen3 hfp q hq]
      · intro k hk
        rw [hmin] at hk
        rcases Nat.eq_zero_or_pos k with hk0 | hkp
        · rw [hk0]
          have hun : st2.mem l3f (i + 0) = st1.mem l3f (i + 0) := by
            by_cases hch : st2.mem l3f (i + 0) = st1.mem l3f (i + 0)
            · exact hch
            · have := hch2 _ _ hch
              omega
          rw [hun, hst1]
          simp [writePte_mem]
        · have hk2 : k - 1 < min slots (pn - 1) := by omega
          have hmm := hmem2 (k - 1) hk2
          have e1 : i + 1 + (k - 1) = i + k := by omega
          have e2 : pa + PAGE_SIZE + (k - 1) * PAGE_SIZE = pa + k * PAGE_SIZE := by
            have e4 : PAGE_SIZE + (k - 1) * PAGE_SIZE = k * PAGE_SIZE := by
              have e3 : k - 1 + 1 = k := by omega
              calc PAGE_SIZE + (k - 1) * PAGE_SIZE = (k - 1 + 1) * PAGE_SIZE := by ring
                _ = k * PAGE_SIZE := by rw [e3]
            omega
          rw [e1, e2] at hmm
          exact hmm
      · intro g t h
        by_cases h1 : st1.mem g t = st.mem g t
        · have h2 : st2.mem g t ≠ st1.mem g t := by
            intro hc
            exact h (by rw [hc, h1])
          have := hch2 g t h2
          rw [hmin]
          exact ⟨this.1, by omega, by omega⟩
        · rw [hst1, writePte_mem] at h1
          by_cases hc : g = l3f ∧ t = i
          · rw [hmin]
            exact ⟨hc.1, by omega, by omega⟩
          · rw [if_neg hc] at h1
            exact absurd rfl h1


/-! ## The outer loop of the page-granularity mapper -/

theorem map_loop_spec :
    ∀ (fuel : Nat) (st : MState) (root va pa flags pn : Nat),
      pn ≤ fuel →
      Inv st.mem st.next root → NoBlock st.mem root →
      va + pn * PAGE_SIZE ≤ 2 ^ 48 →
      pa + pn * PAGE_SIZE ≤ 2 ^ 48 →
      va % PAGE_SIZE = 0 → pa % PAGE_SIZE = 0 →
      st.next + 3 * pn ≤ 2 ^ 36 →
      ∃ st2,
        map_loop fuel st root va pa flags pn = some st2 ∧
        Inv st2.mem st2.next root ∧ NoBlock st2.mem root ∧
        st.next ≤ st2.next ∧ st2.next ≤ st.next + 3 * pn ∧
        st2.allocs + st.next = st.allocs + st2.next ∧
        st2.freed = st.freed ∧
        (∀ q g, goodPath q → frameAt st.mem root q = some g →
          frameAt st2.mem root q = some g) ∧
        (∀ q g, goodPath q → frameAt st2.mem root q = some g →
          frameAt st.mem root q = some g ∨ (st.next ≤ g ∧ g < st2.next)) ∧
        (∀ k, k < pn → ∃ f3,
          frameAt st2.mem root (path3 (va + k * PAGE_SIZE)) = some f3 ∧
          st2.mem f3 (GET_L3_INDEX (va + k * PAGE_SIZE))
            = mkL3PageMap (pa + k * PAGE_SIZE) flags) ∧
        (∀ g t, g < st.next → IS_PTE_INVALID (st.mem g t) = false →
          st2.mem g t = st.mem g t ∨
          ∃ k, k < pn ∧ frameAt st2.mem root (path3 (va + k * PAGE_SIZE)) = some g ∧
            t = GET_L3_INDEX (va + k * PAGE_SIZE)) := by
  intro fuel
  induction fuel with
  | zero =>
    intro st root va pa flags pn hfuel hInv hnb hva hpa hal hpal h36
    have hpn : pn = 0 := by omega
    refine ⟨st, ?_, hInv, hnb, le_refl _, by omega, by omega, rfl,
      fun q g _ h => h, fun q g _ h => Or.inl h, ?_, ?_⟩
    · show (if pn = 0 then some st else none) = some st
      rw [if_pos hpn]
    · intro k hk; omega
    · intro g t _ _; exact Or.inl rfl
  | succ fuel ih =>
    intro st root va pa flags pn hfuel hInv hnb hva hpa hal hpal h36
    by_cases hpn0 : pn = 0
    · refine ⟨st, ?_, hInv, hnb, le_refl _, by omega, by omega, rfl,
        fun q g _ h => h, fun q g _ h => Or.inl h, ?_, ?_⟩
      · rw [map_loop, if_pos hpn0]
      · intro k hk; omega
      · intro g t _ _; exact Or.inl rfl
    · have hpn1 : 0 < pn := by omega
      obtain ⟨n0, st0, n1, st1, n2, st2d, he0, he1, he2, hfa2, hInv2, hnb2,
          hleA, hleB, halloc2, hfreed2, hpres2, hback2, hmc2⟩ :=
        descend3_spec va hInv hnb (by omega)
      have hi512 : GET_L3_INDEX va < 512 := Nat.mod_lt _ (by norm_num)
      obtain ⟨stm, heqm, hn2m, ham, hfm, hfam, hInvm, hnbm, hmemm, hchm⟩ :=
        map_l3_loop_spec (PTP_ENTRIES - GET_L3_INDEX va) st2d root n2
          (GET_L3_INDEX va) va pa flags pn (path3 va)
          (goodPath_path3 va) (by simp [path3]) hfa2 hInv2 hnb2
          hva hpa (Or.inl hpn1)
      obtain ⟨c, hcg⟩ : ∃ c, min (PTP_ENTRIES - GET_L3_INDEX va) pn = c := ⟨_, rfl⟩
      rw [hcg] at heqm hmemm hchm
      have hc1 : 0 < c := by
        unfold PTP_ENTRIES at hcg
        omega
      have hcpn : c ≤ pn := by omega
      have hic : GET_L3_INDEX va + c ≤ 512 := by
        unfold PTP_ENTRIES at hcg
        omega
      have hn2lt : n2 < st2d.next := hInv2.lt (path3 va) n2 (goodPath_path3 va) hfa2
      have hfam2 : frameAt stm.mem root (path3 va) = some n2 := by
        rw [hfam (path3 va) (goodPath_path3 va)]
        exact hfa2
      have hva48 : va + pn * 4096 ≤ 281474976710656 := hva
      have hpa48 : pa + pn * 4096 ≤ 281474976710656 := hpa
      have hal4 : va % 4096 = 0 := hal
      have hpal4 : pa % 4096 = 0 := hpal
      obtain ⟨stf, heqf, hInvf, hnbf, hlef1, hlef2, hallocf, hfreedf, hpresf,
          hbackf, hmapf, hfcf⟩ :=
        ih stm root (va + c * PAGE_SIZE) (pa + c * PAGE_SIZE) flags (pn - c)
          (by omega) hInvm hnbm
          (by show va + c * 4096 + (pn - c) * 4096 ≤ 281474976710656
              omega)
          (by show pa + c * 4096 + (pn - c) * 4096 ≤ 281474976710656
              omega)
          (by show (va + c * 4096) % 4096 = 0
              omega)
          (by show (pa + c * 4096) % 4096 = 0
              omega)
          (by rw [hn2m]; omega)
      have hloop : map_loop (fuel + 1) st root va pa flags pn = some stf := by
        rw [map_loop, if_neg hpn0]
        simp only [he0, he1, he2, heqm]
        exact heqf
      have hchunkidx : ∀ k, k < c →
          path3 (va + k * PAGE_SIZE) = path3 va ∧
          GET_L3_INDEX (va + k * PAGE_SIZE) = GET_L3_INDEX va + k := by
        intro k hk
        have h4 := l3_index_add k hal (by omega)
        constructor
        · rw [path3_eq_iff]
          exact ⟨h4.2.1, h4.2.2.1, h4.2.2.2⟩
        · exact h4.1
      refine ⟨stf, hloop, hInvf, hnbf, ?_, ?_, ?_,
        by rw [hfreedf, hfm, hfreed2], ?_, ?_, ?_, ?_⟩
      · rw [hn2m] at hlef1
        omega
      · rw [hn2m] at hlef2
        omega
      · rw [hn2m, ham] at hallocf
        omega
      · intro q g hq hfq
        exact hpresf q g hq (by rw [hfam q hq]; exact hpres2 q g hq hfq)
      · intro q g hq hfq
        rcases hbackf q g hq hfq with h | h
        · rw [hfam q hq] at h
          rcases hback2 q g hq h with h2 | h2
          · exact Or.inl h2
          · right
            refine ⟨by omega, ?_⟩
            rw [hn2m] at hlef1
            omega
        · right
          rw [hn2m] at h
          exact ⟨by omega, h.2⟩
      · -- every page of the range is mapped in the final state
        intro k hk
        by_cases hkc : k < c
        · obtain ⟨hp3, hl3⟩ := hchunkidx k hkc
          refine ⟨n2, ?_, ?_⟩
          · rw [hp3]
            exact hpresf (path3 va) n2 (goodPath_path3 va) hfam2
          · rw [hl3]
            have hval : stm.mem n2 (GET_L3_INDEX va + k)
                = mkL3PageMap (pa + k * PAGE_SIZE) flags := hmemm k hkc
            have hn2stm : n2 < stm.next := by rw [hn2m]; exact hn2lt
            rcases hfcf n2 (GET_L3_INDEX va + k) hn2stm
                (by rw [hval]; exact mkL3PageMap_valid _ _)
              with hsame | ⟨k2, hk2, hfr, hteq⟩
            · rw [hsame, hval]
            · exfalso
              have hfv : frameAt stf.mem root (path3 va) = some n2 :=
                hpresf (path3 va) n2 (goodPath_path3 va) hfam2
              have hpeq : path3 (va + c * PAGE_SIZE + k2 * PAGE_SIZE) = path3 va :=
                hInvf.inj _ (path3 va) n2 (goodPath_path3 _) (goodPath_path3 va) hfr hfv
              have hc2 := path3_eq_iff.mp hpeq
              have hpv := path3_eq_iff.mp hp3
              have hveq2 : va + k * PAGE_SIZE = va + c * PAGE_SIZE + k2 * PAGE_SIZE := by
                refine page_index_inj ?_ ?_ ?_ ?_ ?_ ?_ ?_ ?_
                · show va + k * 4096 < 281474976710656
                  have := Nat.mul_le_mul_right 4096 (show k + 1 ≤ pn by omega)
                  omega
                · show va + c * 4096 + k2 * 4096 < 281474976710656
                  have := Nat.mul_le_mul_right 4096 (show c + k2 + 1 ≤ pn by omega)
                  omega
                · show (va + k * 4096) % 4096 = 0
                  omega
                · show (va + c * 4096 + k2 * 4096) % 4096 = 0
                  omega
                · rw [hpv.1]
                  exact hc2.1.symm
                · rw [hpv.2.1]
                  exact hc2.2.1.symm
                · rw [hpv.2.2]
                  exact hc2.2.2.symm
                · rw [hl3]
                  exact hteq
              have : k * 4096 = c * 4096 + k2 * 4096 := by
                have hveq3 : va + k * 4096 = va + c * 4096 + k2 * 4096 := hveq2
                omega
              omega
        · obtain ⟨f3, hf3, hm3⟩ := hmapf (k - c) (by omega)
          have e1 : va + c * PAGE_SIZE + (k - c) * PAGE_SIZE = va + k * PAGE_SIZE := by
            show va + c * 4096 + (k - c) * 4096 = va + k * 4096
            omega
          have e2 : pa + c * PAGE_SIZE + (k - c) * PAGE_SIZE = pa + k * PAGE_SIZE := by
            show pa + c * 4096 + (k - c) * 4096 = pa + k * 4096
            omega
          rw [e1] at hf3
          rw [e1, e2] at hm3
          exact ⟨f3, hf3, hm3⟩
      · -- frame condition
        intro g t hg hvalid
        have hgd : st2d.mem g t = st.mem g t := by
          by_cases h : st2d.mem g t = st.mem g t
          · exact h
          · have := hmc2 g t hg h
            rw [this] at hvalid
            exact absurd hvalid (by simp)
        by_cases hfill : stm.mem g t = st2d.mem g t
        · have hvm : IS_PTE_INVALID (stm.mem g t) = false := by
            rw [hfill, hgd]
            exact hvalid
          have hgm : g < stm.next := by
            rw [hn2m]
            omega
          rcases hfcf g t hgm hvm with h | ⟨k2, hk2, hfr, hteq⟩
          · exact Or.inl (by rw [h, hfill, hgd])
          · right
            refine ⟨c + k2, by omega, ?_, ?_⟩
            · have e1 : va + (c + k2) * PAGE_SIZE
                  = va + c * PAGE_SIZE + k2 * PAGE_SIZE := by
                show va + (c + k2) * 4096 = va + c * 4096 + k2 * 4096
                omega
              rw [e1]
              exact hfr
            · have e1 : va + (c + k2) * PAGE_SIZE
                  = va + c * PAGE_SIZE + k2 * PAGE_SIZE := by
                show va + (c + k2) * 4096 = va + c * 4096 + k2 * 4096
                omega
              rw [e1]
              exact hteq
        · have hch := hchm g t hfill
          right
          obtain ⟨hgl, ht1, ht2⟩ := hch
          refine ⟨t - GET_L3_INDEX va, by omega, ?_, ?_⟩
          · rw [(hchunkidx (t - GET_L3_INDEX va) (by omega)).1, hgl]
            exact hpresf (path3 va) n2 (goodPath_path3 va) hfam2
          · rw [(hchunkidx (t - GET_L3_INDEX va) (by omega)).2]
            omega


/-! ## Reading a walk back through `query_in_pgtbl` -/

theorem childFrame_inv {m : Nat → Nat → Nat} {f i g : Nat}
    (h : childFrame m f i = some g) :
    IS_PTE_INVALID (m f i) = false ∧ IS_PTE_TABLE (m f i) = true ∧
      getBits (m f i) 12 36 = g := by
  unfold childFrame at h
  split_ifs at h with hcond
  · rw [Bool.and_eq_true, Bool.not_eq_true'] at hcond
    exact ⟨hcond.1, hcond.2, Option.some.inj h⟩

theorem frameAt3_decomp {m : Nat → Nat → Nat} {root i0 i1 i2 f3 : Nat}
    (h : frameAt m root [i0, i1, i2] = some f3) :
    ∃ f1 f2, childFrame m root i0 = some f1 ∧ childFrame m f1 i1 = some f2 ∧
      childFrame m f2 i2 = some f3 := by
  rw [frameAt_cons] at h
  cases h0 : childFrame m root i0 with
  | none => rw [h0] at h; simp at h
  | some f1 =>
    rw [h0] at h
    simp only [Option.some_bind] at h
    rw [frameAt_cons] at h
    cases h1 : childFrame m f1 i1 with
    | none => rw [h1] at h; simp at h
    | some f2 =>
      rw [h1] at h
      simp only [Option.some_bind] at h
      rw [frameAt_cons] at h
      cases h2 : childFrame m f2 i2 with
      | none => rw [h2] at h; simp at h
      | some f3b =>
        rw [h2] at h
        simp only [Option.some_bind] at h
        refine ⟨f1, f2, rfl, h1, ?_⟩
        rw [h2]
        exact h

theorem gnp_step_table {st : MState} {c : Nat} (l va : Nat) {g : Nat}
    (h : childFrame st.mem c (getIndex l va) = some g) :
    get_next_ptp st (some c) l va false = (GNP.found true g c (getIndex l va), st) := by
  obtain ⟨hv, ht, hg⟩ := childFrame_inv h
  rw [gnp_false_valid hv, ht, hg]

/-- A virtual address whose L0-L2 path consists of valid tables and
whose L3 slot holds a valid entry `e` is resolved by `query_in_pgtbl`
to the output address of `e` plus the page offset, without touching the
state. -/
theorem query_of_leaf {st : MState} {root v f3 e : Nat}
    (hfa : frameAt st.mem root (path3 v) = some f3)
    (he : st.mem f3 (GET_L3_INDEX v) = e)
    (hev : IS_PTE_INVALID e = false) :
    query_in_pgtbl st (some root) v
      = (some (getBits e 12 36 * PAGE_SIZE + GET_VA_OFFSET_L3 v, f3, GET_L3_INDEX v), st) := by
  unfold path3 at hfa
  obtain ⟨f1, f2, h0, h1, h2⟩ := frameAt3_decomp hfa
  have hq0 : get_next_ptp st (some root) 0 v false
      = (GNP.found true f1 root (getIndex 0 v), st) := gnp_step_table 0 v h0
  have hq1 : get_next_ptp st (some f1) 1 v false
      = (GNP.found true f2 f1 (getIndex 1 v), st) := gnp_step_table 1 v h1
  have hq2 : get_next_ptp st (some f2) 2 v false
      = (GNP.found true f3 f2 (getIndex 2 v), st) := gnp_step_table 2 v h2
  have hev3 : IS_PTE_INVALID (st.mem f3 (getIndex 3 v)) = false := by
    show IS_PTE_INVALID (st.mem f3 (GET_L3_INDEX v)) = false
    rw [he]
    exact hev
  have hq3 : get_next_ptp st (some f3) 3 v false
      = (GNP.found (IS_PTE_TABLE e) (getBits e 12 36) f3 (getIndex 3 v), st) := by
    rw [gnp_false_valid hev3]
    show (GNP.found (IS_PTE_TABLE (st.mem f3 (GET_L3_INDEX v)))
      (getBits (st.mem f3 (GET_L3_INDEX v)) 12 36) f3 (getIndex 3 v), st) = _
    rw [he]
  unfold query_in_pgtbl
  simp only [hq0, hq1, hq2, hq3]
  rfl

/-! ## Claim C1: map then translate round-trip -/

theorem pagesOf_aligned {len : Nat} (h : len % PAGE_SIZE = 0) :
    pagesOf len = len / PAGE_SIZE ∧ len / PAGE_SIZE * PAGE_SIZE = len := by
  unfold pagesOf PAGE_SIZE at *
  rw [if_neg (by omega)]
  omega

/-- C1: on a zero-initialized root, after
`map_range_in_pgtbl st root va pa len flags` with page-aligned `va`,
`pa` and `len` (ranges within the 48-bit architectural address space,
allocator frames within the 36-bit table-address field),
`query_in_pgtbl` at every page-aligned `v` in `[va, va + len)` returns
physical address `pa + (v - va)` without modifying the state, and the
found descriptor is a valid L3 page whose AP (write permission) and
UXN (user-execute) fields match the `VMR_WRITE` and `VMR_EXEC` flags
passed to the mapper. -/
theorem C1_map_translate_roundtrip
    (st : MState) (root va pa len flags : Nat)
    (hz : ∀ s, s < 512 → st.mem root s = 0) (hr : root < st.next)
    (hva : va % PAGE_SIZE = 0) (hpa : pa % PAGE_SIZE = 0) (hlen : len % PAGE_SIZE = 0)
    (hva48 : va + len ≤ 2 ^ 48) (hpa48 : pa + len ≤ 2 ^ 48)
    (h36 : st.next + 3 * (len / PAGE_SIZE) ≤ 2 ^ 36) :
    ∃ st2, map_range_in_pgtbl st root va pa len flags = some st2 ∧
      ∀ v, va ≤ v → v < va + len → v % PAGE_SIZE = 0 →
        ∃ f s,
          query_in_pgtbl st2 (some root) v = (some (pa + (v - va), f, s), st2) ∧
          IS_PTE_INVALID (st2.mem f s) = false ∧
          IS_PTE_TABLE (st2.mem f s) = true ∧
          getBits (st2.mem f s) 6 2
            = (if flags &&& VMR_WRITE ≠ 0 then AARCH64_MMU_ATTR_PAGE_AP_HIGH_RW_EL0_RW
               else AARCH64_MMU_ATTR_PAGE_AP_HIGH_RO_EL0_RO) ∧
          getBits (st2.mem f s) 54 1
            = (if flags &&& VMR_EXEC ≠ 0 then AARCH64_MMU_ATTR_PAGE_UX
               else AARCH64_MMU_ATTR_PAGE_UXN) := by
  obtain ⟨hInv, hnb⟩ := Inv_init hz hr
  obtain ⟨hp1, hp2⟩ := pagesOf_aligned hlen
  have hpnlen : pagesOf len * PAGE_SIZE = len := by rw [hp1, hp2]
  obtain ⟨st2, heq, hInv2, hnb2, _, _, _, _, _, _, hmap, _⟩ :=
    map_loop_spec (pagesOf len) st root va pa flags (pagesOf len) (le_refl _)
      hInv hnb (by rw [hpnlen]; exact hva48) (by rw [hpnlen]; exact hpa48)
      hva hpa (by rw [hp1]; exact h36)
  refine ⟨st2, heq, ?_⟩
  intro v hv1 hv2 hv3
  have hP : (0 : Nat) < PAGE_SIZE := by unfold PAGE_SIZE; norm_num
  have hk : v = va + (v - va) / PAGE_SIZE * PAGE_SIZE := by
    have h1 : va % 4096 = 0 := hva
    have h2 : v % 4096 = 0 := hv3
    show v = va + (v - va) / 4096 * 4096
    omega
  have hklt : (v - va) / PAGE_SIZE < pagesOf len := by
    rw [hp1]
    have h1 : len % 4096 = 0 := hlen
    show (v - va) / 4096 < len / 4096
    omega
  obtain ⟨f3, hfa3, hm3⟩ := hmap ((v - va) / PAGE_SIZE) hklt
  rw [← hk] at hfa3 hm3
  have hpav : pa + (v - va) / PAGE_SIZE * PAGE_SIZE = pa + (v - va) := by
    have h1 : va % 4096 = 0 := hva
    have h2 : v % 4096 = 0 := hv3
    show pa + (v - va) / 4096 * 4096 = pa + (v - va)
    omega
  rw [hpav] at hm3
  have hquery := query_of_leaf hfa3 hm3 (mkL3PageMap_valid _ _)
  have hpa2 : getBits (mkL3PageMap (pa + (v - va)) flags) 12 36 * PAGE_SIZE
      + GET_VA_OFFSET_L3 v = pa + (v - va) := by
    rw [mkL3PageMap_addr]
    unfold GET_VA_OFFSET_L3
    have h1 : pa % 4096 = 0 := hpa
    have h2 : va % 4096 = 0 := hva
    have h3 : v % 4096 = 0 := hv3
    have h4 : pa + len ≤ 281474976710656 := hpa48
    show (pa + (v - va)) / 2 ^ 12 % 2 ^ 36 * 4096 + v % 2 ^ 12 = pa + (v - va)
    norm_num
    omega
  rw [hpa2] at hquery
  refine ⟨f3, GET_L3_INDEX v, hquery, ?_, ?_, ?_, ?_⟩
  · rw [hm3]; exact mkL3PageMap_valid _ _
  · rw [hm3]; exact mkL3PageMap_table _ _
  · rw [hm3, mkL3PageMap_AP]
    rfl
  · rw [hm3, mkL3PageMap_UXN]
    rfl

/-- Witness for C1 at the repository's own test input:
`map(root, 0x1001000, 0x1000, PAGE_SIZE, READ | WRITE)` then querying
`0x1001000`. -/
theorem C1_map_translate_roundtrip_witness :
    ∃ st2, map_range_in_pgtbl (initState 0) 0 0x1001000 0x1000 4096
        (VMR_READ ||| VMR_WRITE) = some st2 ∧
      ∀ v, 0x1001000 ≤ v → v < 0x1001000 + 4096 → v % PAGE_SIZE = 0 →
        ∃ f s,
          query_in_pgtbl st2 (some 0) v = (some (0x1000 + (v - 0x1001000), f, s), st2) ∧
          IS_PTE_INVALID (st2.mem f s) = false ∧
          IS_PTE_TABLE (st2.mem f s) = true ∧
          getBits (st2.mem f s) 6 2
            = (if (VMR_READ ||| VMR_WRITE) &&& VMR_WRITE ≠ 0
               then AARCH64_MMU_ATTR_PAGE_AP_HIGH_RW_EL0_RW
               else AARCH64_MMU_ATTR_PAGE_AP_HIGH_RO_EL0_RO) ∧
          getBits (st2.mem f s) 54 1
            = (if (VMR_READ ||| VMR_WRITE) &&& VMR_EXEC ≠ 0
               then AARCH64_MMU_ATTR_PAGE_UX
               else AARCH64_MMU_ATTR_PAGE_UXN) :=
  C1_map_translate_roundtrip (initState 0) 0 0x1001000 0x1000 4096
    (VMR_READ ||| VMR_WRITE) (fun _ _ => rfl) (by decide) (by decide) (by decide)
    (by decide) (by norm_num) (by norm_num) (by norm_num [initState, PAGE_SIZE])


/-! ## The L3 invalidation loop of the page-granularity unmapper -/

theorem unmap_l3_loop_spec :
    ∀ (slots : Nat) (st : MState) (root l3f i va pn : Nat) (p3 : List Nat),
      goodPath p3 → p3.length = 3 →
      frameAt st.mem root p3 = some l3f →
      Inv st.mem st.next root → NoBlock st.mem root →
      va + pn * PAGE_SIZE ≤ 2 ^ 48 →
      (0 < pn ∨ slots = 0) →
      ∃ st2,
        unmap_l3_loop slots st l3f i va pn
          = (st2, va + min slots pn * PAGE_SIZE, pn - min slots pn) ∧
        st2.next = st.next ∧ st2.allocs = st.allocs ∧ st2.freed = st.freed ∧
        (∀ q, goodPath q → frameAt st2.mem root q = frameAt st.mem root q) ∧
        Inv st2.mem st2.next root ∧ NoBlock st2.mem root ∧
        (∀ k, k < min slots pn → st2.mem l3f (i + k) = 0) ∧
        (∀ g t, st2.mem g t = st.mem g t ∨ st2.mem g t = 0) := by
  intro slots
  induction slots with
  | zero =>
    intro st root l3f i va pn p3 hgp hlen3 hfp hInv hnb hva hpn
    refine ⟨st, ?_, rfl, rfl, rfl, fun q _ => rfl, hInv, hnb, ?_, ?_⟩
    · show (st, va, pn) = _
      simp
    · intro k hk
      simp at hk
    · intro g t
      exact Or.inl rfl
  | succ slots ih =>
    intro st root l3f i va pn p3 hgp hlen3 hfp hInv hnb hva hpn
    have hpn1 : 0 < pn := by
      rcases hpn with h | h
      · exact h
      · exact absurd h (by omega)
    have hva1 : (va + PAGE_SIZE) % U64 = va + PAGE_SIZE := by
      apply u64_small
      unfold PAGE_SIZE at *
      omega
    set st1 := writePte st l3f i PTE_DESCRIPTOR_INVALID with hst1
    have hfp1 : frameAt st1.mem root p3 = some l3f := by
      rw [hst1, frameAt_write_deep i PTE_DESCRIPTOR_INVALID hInv hgp hlen3 hfp p3 hgp, hfp]
    have hInv1 : Inv st1.mem st1.next root := by
      rw [hst1]
      exact Inv_of_frameAt_eq
        (fun q hq => frameAt_write_deep i PTE_DESCRIPTOR_INVALID hInv hgp hlen3 hfp q hq) hInv
    have hnb1 : NoBlock st1.mem root :=
      NoBlock_write_deep i PTE_DESCRIPTOR_INVALID hInv hgp hlen3 hfp hnb
    by_cases hz : pn - 1 = 0
    · have hpn2 : pn = 1 := by omega
      refine ⟨st1, ?_, rfl, rfl, rfl,
        fun q hq => frameAt_write_deep i PTE_DESCRIPTOR_INVALID hInv hgp hlen3 hfp q hq,
        hInv1, hnb1, ?_, ?_⟩
      · show unmap_l3_loop (slots + 1) st l3f i va pn = _
        rw [unmap_l3_loop]
        simp only [hva1, hz, if_pos rfl]
        rw [hpn2]
        simp
      · intro k hk
        rw [hpn2] at hk
        simp at hk
        rw [hk]
        simp [hst1, writePte_mem, PTE_DESCRIPTOR_INVALID]
      · intro g t
        rw [hst1, writePte_mem]
        by_cases hc : g = l3f ∧ t = i
        · rw [if_pos hc]
          exact Or.inr rfl
        · rw [if_neg hc]
          exact Or.inl rfl
    · have hrec := ih st1 root l3f (i + 1) (va + PAGE_SIZE) (pn - 1)
        p3 hgp hlen3 hfp1 hInv1 hnb1
        (by unfold PAGE_SIZE at *; omega)
        (Or.inl (by omega))
      obtain ⟨st2, heq, hn2, ha2, hf2, hfa2, hInv2, hnb2, hmem2, hch2⟩ := hrec
      have hmin : min (slots + 1) pn = 1 + min slots (pn - 1) := by omega
      refine ⟨st2, ?_, by rw [hn2, hst1]; rfl, by rw [ha2, hst1]; rfl,
        by rw [hf2, hst1]; rfl, ?_, hInv2, hnb2, ?_, ?_⟩
      · show unmap_l3_loop (slots + 1) st l3f i va pn = _
        rw [unmap_l3_loop]
        simp only [hva1, if_neg hz]
        rw [heq, hmin]
        have e1 : va + PAGE_SIZE + min slots (pn - 1) * PAGE_SIZE
            = va + (1 + min slots (pn - 1)) * PAGE_SIZE := by ring
        have e3 : pn - 1 - min slots (pn - 1) = pn - (1 + min slots (pn - 1)) := by omega
        rw [e1, e3]
      · intro q hq
        rw [hfa2 q hq, hst1,
          frameAt_write_deep i PTE_DESCRIPTOR_INVALID hInv hgp hlen3 hfp q hq]
      · intro k hk
        rw [hmin] at hk
        rcases Nat.eq_zero_or_pos k with hk0 | hkp
        · rw [hk0]
          rcases hch2 l3f (i + 0) with h | h
          · rw [h, hst1]
            simp [writePte_mem, PTE_DESCRIPTOR_INVALID]
          · exact h
        · have hk2 : k - 1 < min slots (pn - 1) := by omega
          have hmm := hmem2 (k - 1) hk2
          have e1 : i + 1 + (k - 1) = i + k := by omega
          rw [e1] at hmm
          exact hmm
      · intro g t
        rcases hch2 g t with h | h
        · rw [h, hst1, writePte_mem]
          by_cases hc : g = l3f ∧ t = i
          · rw [if_pos hc]
            exact Or.inr rfl
          · rw [if_neg hc]
            exact Or.inl rfl
        · exact Or.inr h


/-! ## The outer loop of the page-granularity unmapper, on a fully
mapped range -/

theorem unmap_loop_spec :
    ∀ (fuel : Nat) (st : MState) (root va pn : Nat),
      pn ≤ fuel →
      Inv st.mem st.next root → NoBlock st.mem root →
      va + pn * PAGE_SIZE ≤ 2 ^ 48 →
      va % PAGE_SIZE = 0 →
      (∀ k, k < pn → ∃ f3, frameAt st.mem root (path3 (va + k * PAGE_SIZE)) = some f3) →
      ∃ st2,
        unmap_loop fuel st root va pn = some st2 ∧
        st2.next = st.next ∧ st2.allocs = st.allocs ∧ st2.freed = st.freed ∧
        (∀ q, goodPath q → frameAt st2.mem root q = frameAt st.mem root q) ∧
        Inv st2.mem st2.next root ∧ NoBlock st2.mem root ∧
        (∀ k f3, k < pn → frameAt st.mem root (path3 (va + k * PAGE_SIZE)) = some f3 →
          st2.mem f3 (GET_L3_INDEX (va + k * PAGE_SIZE)) = 0) ∧
        (∀ g t, st2.mem g t = st.mem g t ∨ st2.mem g t = 0) := by
  intro fuel
  induction fuel with
  | zero =>
    intro st root va pn hfuel hInv hnb hva hal hpaths
    have hpn : pn = 0 := by omega
    refine ⟨st, ?_, rfl, rfl, rfl, fun q _ => rfl, hInv, hnb, ?_, fun g t => Or.inl rfl⟩
    · show (if pn = 0 then some st else none) = some st
      rw [if_pos hpn]
    · intro k f3 hk
      omega
  | succ fuel ih =>
    intro st root va pn hfuel hInv hnb hva hal hpaths
    by_cases hpn0 : pn = 0
    · refine ⟨st, ?_, rfl, rfl, rfl, fun q _ => rfl, hInv, hnb, ?_, fun g t => Or.inl rfl⟩
      · rw [unmap_loop, if_pos hpn0]
      · intro k f3 hk
        omega
    · have hpn1 : 0 < pn := by omega
      obtain ⟨f3, hfa3⟩ := hpaths 0 hpn1
      rw [show va + 0 * PAGE_SIZE = va from by ring_nf] at hfa3
      have hfa3' := hfa3
      unfold path3 at hfa3'
      obtain ⟨f1, f2, h0, h1, h2⟩ := frameAt3_decomp hfa3'
      have hq0 : get_next_ptp st (some root) 0 va false
          = (GNP.found true f1 root (getIndex 0 va), st) := gnp_step_table 0 va h0
      have hq1 : get_next_ptp st (some f1) 1 va false
          = (GNP.found true f2 f1 (getIndex 1 va), st) := gnp_step_table 1 va h1
      have hq2 : get_next_ptp st (some f2) 2 va false
          = (GNP.found true f3 f2 (getIndex 2 va), st) := gnp_step_table 2 va h2
      have hi512 : GET_L3_INDEX va < 512 := Nat.mod_lt _ (by norm_num)
      obtain ⟨stm, heqm, hn2m, ham, hfm, hfam, hInvm, hnbm, hmemm, hchm⟩ :=
        unmap_l3_loop_spec (PTP_ENTRIES - GET_L3_INDEX va) st root f3
          (GET_L3_INDEX va) va pn (path3 va)
          (goodPath_path3 va) (by simp [path3]) hfa3 hInv hnb hva (Or.inl hpn1)
      obtain ⟨c, hcg⟩ : ∃ c, min (PTP_ENTRIES - GET_L3_INDEX va) pn = c := ⟨_, rfl⟩
      rw [hcg] at heqm hmemm
      have hc1 : 0 < c := by
        unfold PTP_ENTRIES at hcg
        omega
      have hcpn : c ≤ pn := by omega
      have hic : GET_L3_INDEX va + c ≤ 512 := by
        unfold PTP_ENTRIES at hcg
        omega
      have hva48 : va + pn * 4096 ≤ 281474976710656 := hva
      have hal4 : va % 4096 = 0 := hal
      have hchunkidx : ∀ k, k < c →
          path3 (va + k * PAGE_SIZE) = path3 va ∧
          GET_L3_INDEX (va + k * PAGE_SIZE) = GET_L3_INDEX va + k := by
        intro k hk
        have h4 := l3_index_add k hal (by omega)
        exact ⟨by rw [path3_eq_iff]; exact ⟨h4.2.1, h4.2.2.1, h4.2.2.2⟩, h4.1⟩
      have hrestpaths : ∀ k, k < pn - c →
          ∃ g3, frameAt stm.mem root (path3 (va + c * PAGE_SIZE + k * PAGE_SIZE)) = some g3 := by
        intro k hk
        obtain ⟨g3, hg3⟩ := hpaths (c + k) (by omega)
        refine ⟨g3, ?_⟩
        rw [hfam _ (goodPath_path3 _)]
        have e1 : va + c * PAGE_SIZE + k * PAGE_SIZE = va + (c + k) * PAGE_SIZE := by
          show va + c * 4096 + k * 4096 = va + (c + k) * 4096
          omega
        rw [e1]
        exact hg3
      obtain ⟨stf, heqf, hnf, haf, hff, hfaf, hInvf, hnbf, hzerof, hchf⟩ :=
        ih stm root (va + c * PAGE_SIZE) (pn - c) (by omega) hInvm hnbm
          (by show va + c * 4096 + (pn - c) * 4096 ≤ 281474976710656
              omega)
          (by show (va + c * 4096) % 4096 = 0
              omega)
          hrestpaths
      have hloop : unmap_loop (fuel + 1) st root va pn = some stf := by
        rw [unmap_loop, if_neg hpn0]
        simp only [hq0, hq1, hq2, heqm]
        exact heqf
      refine ⟨stf, hloop, by rw [hnf, hn2m], by rw [haf, ham], by rw [hff, hfm],
        ?_, hInvf, hnbf, ?_, ?_⟩
      · intro q hq
        rw [hfaf q hq, hfam q hq]
      · intro k g3 hk hg3
        by_cases hkc : k < c
        · obtain ⟨hp3, hl3⟩ := hchunkidx k hkc
          rw [hp3] at hg3
          rw [hfa3] at hg3
          have hg3e : g3 = f3 := by
            exact (Option.some.inj hg3).symm
          rw [hl3, hg3e]
          rcases hchf f3 (GET_L3_INDEX va + k) with h | h
          · rw [h]
            exact hmemm k hkc
          · exact h
        · have e1 : va + k * PAGE_SIZE = va + c * PAGE_SIZE + (k - c) * PAGE_SIZE := by
            show va + k * 4096 = va + c * 4096 + (k - c) * 4096
            omega
          have hg3m : frameAt stm.mem root
              (path3 (va + c * PAGE_SIZE + (k - c) * PAGE_SIZE)) = some g3 := by
            rw [← e1, hfam _ (goodPath_path3 _)]
            exact hg3
          have hz := hzerof (k - c) g3 (by omega) hg3m
          rw [e1]
          exact hz
      · intro g t
        rcases hchf g t with h | h
        · rw [h]
          exact hchm g t
        · exact Or.inr h


/-! ## Claim C2: map then unmap over the identical range -/

theorem query_none_of_invalid_leaf {st : MState} {root v f3 : Nat}
    (hfa : frameAt st.mem root (path3 v) = some f3)
    (he : IS_PTE_INVALID (st.mem f3 (GET_L3_INDEX v)) = true) :
    query_in_pgtbl st (some root) v = (none, st) := by
  unfold path3 at hfa
  obtain ⟨f1, f2, h0, h1, h2⟩ := frameAt3_decomp hfa
  have hq0 : get_next_ptp st (some root) 0 v false
      = (GNP.found true f1 root (getIndex 0 v), st) := gnp_step_table 0 v h0
  have hq1 : get_next_ptp st (some f1) 1 v false
      = (GNP.found true f2 f1 (getIndex 1 v), st) := gnp_step_table 1 v h1
  have hq2 : get_next_ptp st (some f2) 2 v false
      = (GNP.found true f3 f2 (getIndex 2 v), st) := gnp_step_table 2 v h2
  have hq3 : get_next_ptp st (some f3) 3 v false = (GNP.noMapping, st) :=
    gnp_false_invalid he
  unfold query_in_pgtbl
  simp only [hq0, hq1, hq2, hq3]

theorem indices_of_same_page {b v : Nat} (hb : b % PAGE_SIZE = 0)
    (h1 : b ≤ v) (h2 : v < b + PAGE_SIZE) :
    GET_L0_INDEX v = GET_L0_INDEX b ∧ GET_L1_INDEX v = GET_L1_INDEX b ∧
    GET_L2_INDEX v = GET_L2_INDEX b ∧ GET_L3_INDEX v = GET_L3_INDEX b := by
  unfold GET_L0_INDEX GET_L1_INDEX GET_L2_INDEX GET_L3_INDEX PAGE_SIZE at *
  norm_num at *
  omega

/-- C2: on a zero-initialized root, `map_range_in_pgtbl` over an
aligned range followed by `unmap_range_in_pgtbl` over the identical
range makes `query_in_pgtbl` return `-ENOMAPPING` (modelled `none`) for
EVERY address in `[va, va + len)`, aligned or not, without modifying
the state. -/
theorem C2_map_unmap_cancels
    (st : MState) (root va pa len flags : Nat)
    (hz : ∀ s, s < 512 → st.mem root s = 0) (hr : root < st.next)
    (hva : va % PAGE_SIZE = 0) (hpa : pa % PAGE_SIZE = 0) (hlen : len % PAGE_SIZE = 0)
    (hva48 : va + len ≤ 2 ^ 48) (hpa48 : pa + len ≤ 2 ^ 48)
    (h36 : st.next + 3 * (len / PAGE_SIZE) ≤ 2 ^ 36) :
    ∃ st2 st3,
      map_range_in_pgtbl st root va pa len flags = some st2 ∧
      unmap_range_in_pgtbl st2 root va len = some st3 ∧
      ∀ v, va ≤ v → v < va + len →
        query_in_pgtbl st3 (some root) v = (none, st3) := by
  obtain ⟨hInv, hnb⟩ := Inv_init hz hr
  obtain ⟨hp1, hp2⟩ := pagesOf_aligned hlen
  have hpnlen : pagesOf len * PAGE_SIZE = len := by rw [hp1, hp2]
  obtain ⟨st2, heq, hInv2, hnb2, _, _, _, _, _, _, hmap, _⟩ :=
    map_loop_spec (pagesOf len) st root va pa flags (pagesOf len) (le_refl _)
      hInv hnb (by rw [hpnlen]; exact hva48) (by rw [hpnlen]; exact hpa48)
      hva hpa (by rw [hp1]; exact h36)
  obtain ⟨st3, hueq, hn3, ha3, hf3l, hfa3, hInv3, hnb3, hzero, hch3⟩ :=
    unmap_loop_spec (pagesOf len) st2 root va (pagesOf len) (le_refl _)
      hInv2 hnb2 (by rw [hpnlen]; exact hva48) hva
      (fun k hk => (hmap k hk).imp (fun f3 h => h.1))
  refine ⟨st2, st3, heq, hueq, ?_⟩
  intro v hv1 hv2
  have hP : (0 : Nat) < PAGE_SIZE := by unfold PAGE_SIZE; norm_num
  have hk : va + (v - va) / PAGE_SIZE * PAGE_SIZE ≤ v ∧
      v < va + (v - va) / PAGE_SIZE * PAGE_SIZE + PAGE_SIZE := by
    have h1 : va % 4096 = 0 := hva
    constructor
    · show va + (v - va) / 4096 * 4096 ≤ v
      omega
    · show v < va + (v - va) / 4096 * 4096 + 4096
      omega
  have hbal : (va + (v - va) / PAGE_SIZE * PAGE_SIZE) % PAGE_SIZE = 0 := by
    have h1 : va % 4096 = 0 := hva
    show (va + (v - va) / 4096 * 4096) % 4096 = 0
    omega
  have hklt : (v - va) / PAGE_SIZE < pagesOf len := by
    rw [hp1]
    have h1 : len % 4096 = 0 := hlen
    show (v - va) / 4096 < len / 4096
    omega
  obtain ⟨f3, hfab, _⟩ := hmap ((v - va) / PAGE_SIZE) hklt
  have hzb := hzero ((v - va) / PAGE_SIZE) f3 hklt hfab
  have hfab3 : frameAt st3.mem root
      (path3 (va + (v - va) / PAGE_SIZE * PAGE_SIZE)) = some f3 := by
    rw [hfa3 _ (goodPath_path3 _)]
    exact hfab
  obtain ⟨hi0, hi1, hi2, hi3⟩ := indices_of_same_page hbal hk.1 hk.2
  have hfav : frameAt st3.mem root (path3 v) = some f3 := by
    rw [path3_eq_iff.mpr ⟨hi0, hi1, hi2⟩]
    exact hfab3
  refine query_none_of_invalid_leaf hfav ?_
  rw [hi3, hzb]
  rfl

/-- Witness for C2 at the repository's own test input. -/
theorem C2_map_unmap_cancels_witness :
    ∃ st2 st3,
      map_range_in_pgtbl (initState 0) 0 0x1001000 0x1000 4096
        (VMR_READ ||| VMR_WRITE) = some st2 ∧
      unmap_range_in_pgtbl st2 0 0x1001000 4096 = some st3 ∧
      ∀ v, 0x1001000 ≤ v → v < 0x1001000 + 4096 →
        query_in_pgtbl st3 (some 0) v = (none, st3) :=
  C2_map_unmap_cancels (initState 0) 0 0x1001000 0x1000 4096
    (VMR_READ ||| VMR_WRITE) (fun _ _ => rfl) (by decide) (by decide) (by decide)
    (by decide) (by norm_num) (by norm_num) (by norm_num [initState, PAGE_SIZE])


/-! ## Claim C5: the read-only query walk -/

theorem gnp_false_state (st : MState) (cur : Option Nat) (l va : Nat) :
    (get_next_ptp st cur l va false).2 = st := by
  unfold get_next_ptp
  cases cur with
  | none => rfl
  | some c =>
    simp only []
    split_ifs <;> first | rfl | exact ((by assumption : False)).elim

theorem query_state_id (st : MState) (pg : Option Nat) (va : Nat) :
    (query_in_pgtbl st pg va).2 = st := by
  rcases h0 : get_next_ptp st pg 0 va false with ⟨r0, st0⟩
  have hs0 : st0 = st := by
    have := gnp_false_state st pg 0 va
    rw [h0] at this
    exact this
  unfold query_in_pgtbl
  rw [h0]
  cases r0 with
  | noMapping => exact hs0
  | found b0 n0 ff0 ss0 =>
    rcases h1 : get_next_ptp st0 (some n0) 1 va false with ⟨r1, st1⟩
    have hs1 : st1 = st0 := by
      have := gnp_false_state st0 (some n0) 1 va
      rw [h1] at this
      exact this
    simp only [h1]
    cases r1 with
    | noMapping => exact hs1.trans hs0
    | found b1 n1 ff1 ss1 =>
      cases b1 with
      | false => exact hs1.trans hs0
      | true =>
        rcases h2 : get_next_ptp st1 (some n1) 2 va false with ⟨r2, st2⟩
        have hs2 : st2 = st1 := by
          have := gnp_false_state st1 (some n1) 2 va
          rw [h2] at this
          exact this
        simp only [h2]
        cases r2 with
        | noMapping => exact (hs2.trans hs1).trans hs0
        | found b2 n2 ff2 ss2 =>
          cases b2 with
          | false => exact (hs2.trans hs1).trans hs0
          | true =>
            rcases h3 : get_next_ptp st2 (some n2) 3 va false with ⟨r3, st3⟩
            have hs3 : st3 = st2 := by
              have := gnp_false_state st2 (some n2) 3 va
              rw [h3] at this
              exact this
            simp only [h3]
            cases r3 with
            | noMapping => exact ((hs3.trans hs2).trans hs1).trans hs0
            | found b3 n3 ff3 ss3 => exact ((hs3.trans hs2).trans hs1).trans hs0

/-- C5: `query_in_pgtbl` walks levels 0 to 3 with allocation disabled
and never changes the machine state (no allocation, every entry left
unchanged); it returns `-ENOMAPPING` as soon as the entry examined at
any level is invalid; it stops at the first block result at L1 or L2,
returning the block's output address bits (`next_table_addr` shifted by
`PAGE_SHIFT`) plus the low 30 (resp. 21) bits of `va`, and otherwise
descends to L3 and returns the page's output address plus the low 12
bits of `va`, together with the position of the found descriptor. -/
theorem C5_query_walk_spec (st : MState) (root va : Nat) :
    (query_in_pgtbl st (some root) va).2 = st ∧
    (IS_PTE_INVALID (st.mem root (GET_L0_INDEX va)) = true →
      query_in_pgtbl st (some root) va = (none, st)) ∧
    (IS_PTE_INVALID (st.mem root (GET_L0_INDEX va)) = false →
      (IS_PTE_INVALID (st.mem (walkFrame1 st.mem root va) (GET_L1_INDEX va)) = true →
        query_in_pgtbl st (some root) va = (none, st)) ∧
      (IS_PTE_INVALID (st.mem (walkFrame1 st.mem root va) (GET_L1_INDEX va)) = false →
        (IS_PTE_TABLE (st.mem (walkFrame1 st.mem root va) (GET_L1_INDEX va)) = false →
          query_in_pgtbl st (some root) va
            = (some (walkFrame2 st.mem root va * PAGE_SIZE + GET_VA_OFFSET_L1 va,
                walkFrame1 st.mem root va, GET_L1_INDEX va), st)) ∧
        (IS_PTE_TABLE (st.mem (walkFrame1 st.mem root va) (GET_L1_INDEX va)) = true →
          (IS_PTE_INVALID (st.mem (walkFrame2 st.mem root va) (GET_L2_INDEX va)) = true →
            query_in_pgtbl st (some root) va = (none, st)) ∧
          (IS_PTE_INVALID (st.mem (walkFrame2 st.mem root va) (GET_L2_INDEX va)) = false →
            (IS_PTE_TABLE (st.mem (walkFrame2 st.mem root va) (GET_L2_INDEX va)) = false →
              query_in_pgtbl st (some root) va
                = (some (walkFrame3 st.mem root va * PAGE_SIZE + GET_VA_OFFSET_L2 va,
                    walkFrame2 st.mem root va, GET_L2_INDEX va), st)) ∧
            (IS_PTE_TABLE (st.mem (walkFrame2 st.mem root va) (GET_L2_INDEX va)) = true →
              (IS_PTE_INVALID (st.mem (walkFrame3 st.mem root va) (GET_L3_INDEX va)) = true →
                query_in_pgtbl st (some root) va = (none, st)) ∧
              (IS_PTE_INVALID (st.mem (walkFrame3 st.mem root va) (GET_L3_INDEX va)) = false →
                query_in_pgtbl st (some root) va
                  = (some (getBits (st.mem (walkFrame3 st.mem root va) (GET_L3_INDEX va)) 12 36
                        * PAGE_SIZE + GET_VA_OFFSET_L3 va,
                      walkFrame3 st.mem root va, GET_L3_INDEX va), st))))))) := by
  refine ⟨query_state_id st (some root) va, ?_, ?_⟩
  · intro h
    have hq0 : get_next_ptp st (some root) 0 va false = (GNP.noMapping, st) :=
      gnp_false_invalid h
    unfold query_in_pgtbl
    rw [hq0]
  · intro h0
    have hq0 : get_next_ptp st (some root) 0 va false
        = (GNP.found (IS_PTE_TABLE (st.mem root (GET_L0_INDEX va)))
            (walkFrame1 st.mem root va) root (getIndex 0 va), st) :=
      gnp_false_valid h0
    constructor
    · intro h1
      have hq1 : get_next_ptp st (some (walkFrame1 st.mem root va)) 1 va false
          = (GNP.noMapping, st) := gnp_false_invalid h1
      unfold query_in_pgtbl
      rw [hq0]
      simp only [hq1]
    · intro h1
      have hq1 : get_next_ptp st (some (walkFrame1 st.mem root va)) 1 va false
          = (GNP.found (IS_PTE_TABLE (st.mem (walkFrame1 st.mem root va) (GET_L1_INDEX va)))
              (walkFrame2 st.mem root va) (walkFrame1 st.mem root va) (getIndex 1 va), st) :=
        gnp_false_valid h1
      constructor
      · intro ht1
        rw [ht1] at hq1
        unfold query_in_pgtbl
        rw [hq0]
        simp only [hq1]
        rfl
      · intro ht1
        rw [ht1] at hq1
        constructor
        · intro h2
          have hq2 : get_next_ptp st (some (walkFrame2 st.mem root va)) 2 va false
              = (GNP.noMapping, st) := gnp_false_invalid h2
          unfold query_in_pgtbl
          rw [hq0]
          simp only [hq1, hq2]
        · intro h2
          have hq2 : get_next_ptp st (some (walkFrame2 st.mem root va)) 2 va false
              = (GNP.found (IS_PTE_TABLE (st.mem (walkFrame2 st.mem root va) (GET_L2_INDEX va)))
                  (walkFrame3 st.mem root va) (walkFrame2 st.mem root va) (getIndex 2 va), st) :=
            gnp_false_valid h2
          constructor
          · intro ht2
            rw [ht2] at hq2
            unfold query_in_pgtbl
            rw [hq0]
            simp only [hq1, hq2]
            rfl
          · intro ht2
            rw [ht2] at hq2
            constructor
            · intro h3
              have hq3 : get_next_ptp st (some (walkFrame3 st.mem root va)) 3 va false
                  = (GNP.noMapping, st) := gnp_false_invalid h3
              unfold query_in_pgtbl
              rw [hq0]
              simp only [hq1, hq2, hq3]
            · intro h3
              have hq3 : get_next_ptp st (some (walkFrame3 st.mem root va)) 3 va false
                  = (GNP.found (IS_PTE_TABLE (st.mem (walkFrame3 st.mem root va) (GET_L3_INDEX va)))
                      (getBits (st.mem (walkFrame3 st.mem root va) (GET_L3_INDEX va)) 12 36)
                      (walkFrame3 st.mem root va) (getIndex 3 va), st) :=
                gnp_false_valid h3
              unfold query_in_pgtbl
              rw [hq0]
              simp only [hq1, hq2, hq3]
              rfl

/-- Witness for C5: on a fresh empty root, querying any address fails
with NoMapping and leaves the state untouched. -/
theorem C5_query_walk_spec_witness :
    query_in_pgtbl (initState 0) (some 0) 4660 = (none, initState 0) :=
  (C5_query_walk_spec (initState 0) 0 4660).2.1 (by decide)


/-! ## Claim C9: the post-order table deallocator -/

theorem frameAt_cons_some {m : Nat → Nat → Nat} {f i x : Nat} {p : List Nat} :
    frameAt m f (i :: p) = some x ↔
      ∃ g, childFrame m f i = some g ∧ frameAt m g p = some x := by
  rw [frameAt_cons]
  cases h : childFrame m f i <;> simp [h]

theorem childFrame_some_cond {m : Nat → Nat → Nat} {f i g : Nat}
    (h : childFrame m f i = some g) :
    IS_PTE_INVALID (m f i) = false ∧ IS_PTE_TABLE (m f i) = true ∧
      getBits (m f i) 12 36 = g := by
  unfold childFrame at h
  cases hI : IS_PTE_INVALID (m f i) <;> cases hT : IS_PTE_TABLE (m f i) <;>
    simp [hI, hT] at h
  exact ⟨rfl, rfl, h⟩

theorem freeL0_branch {m : Nat → Nat → Nat} {root i g : Nat}
    (h : childFrame m root i = some g) :
    (if IS_PTE_INVALID (m root i) || !IS_PTE_TABLE (m root i) then ([] : List Nat)
     else freeL1List m (getBits (m root i) 12 36) ++ [getBits (m root i) 12 36])
      = freeL1List m g ++ [g] := by
  obtain ⟨hI, hT, hg⟩ := childFrame_some_cond h
  rw [hI, hT, hg]
  rfl

theorem freeL1_branch {m : Nat → Nat → Nat} {f1 j g : Nat}
    (h : childFrame m f1 j = some g) :
    (if IS_PTE_INVALID (m f1 j) || !IS_PTE_TABLE (m f1 j) then ([] : List Nat)
     else freeL2List m (getBits (m f1 j) 12 36) ++ [getBits (m f1 j) 12 36])
      = freeL2List m g ++ [g] := by
  obtain ⟨hI, hT, hg⟩ := childFrame_some_cond h
  rw [hI, hT, hg]
  rfl

theorem mem_freeL2List {m : Nat → Nat → Nat} {f2 x : Nat} :
    x ∈ freeL2List m f2 ↔ ∃ k, k < PTP_ENTRIES ∧ childFrame m f2 k = some x := by
  unfold freeL2List
  rw [List.mem_filterMap]
  constructor
  · rintro ⟨k, hkr, hk⟩
    refine ⟨k, List.mem_range.mp hkr, ?_⟩
    cases hinv : IS_PTE_INVALID (m f2 k) with
    | true => simp [hinv] at hk
    | false =>
      cases htab : IS_PTE_TABLE (m f2 k) with
      | false => simp [hinv, htab] at hk
      | true =>
        simp [hinv, htab] at hk
        rw [childFrame_of_valid_table hinv htab, hk]
  · rintro ⟨k, hk, hcf⟩
    obtain ⟨hI, hT, hg⟩ := childFrame_some_cond hcf
    refine ⟨k, List.mem_range.mpr hk, ?_⟩
    simp [hI, hT, hg]

theorem mem_freeL1List {m : Nat → Nat → Nat} {f1 x : Nat} :
    x ∈ freeL1List m f1 ↔
      ∃ j, j < PTP_ENTRIES ∧ ∃ g, childFrame m f1 j = some g ∧
        (x ∈ freeL2List m g ∨ x = g) := by
  unfold freeL1List
  rw [List.mem_flatMap]
  constructor
  · rintro ⟨j, hjr, hxj⟩
    refine ⟨j, List.mem_range.mp hjr, ?_⟩
    cases hinv : IS_PTE_INVALID (m f1 j) with
    | true => simp [hinv] at hxj
    | false =>
      cases htab : IS_PTE_TABLE (m f1 j) with
      | false => simp [hinv, htab] at hxj
      | true =>
        simp [hinv, htab] at hxj
        exact ⟨getBits (m f1 j) 12 36, childFrame_of_valid_table hinv htab, hxj⟩
  · rintro ⟨j, hj, g, hcf, hx⟩
    refine ⟨j, List.mem_range.mpr hj, ?_⟩
    obtain ⟨hI, hT, hg⟩ := childFrame_some_cond hcf
    simp [hI, hT, hg]
    exact hx

theorem mem_freeL0List {m : Nat → Nat → Nat} {root x : Nat} :
    x ∈ freeL0List m root ↔
      (x = root ∨ ∃ i, i < PTP_ENTRIES ∧ ∃ g, childFrame m root i = some g ∧
        (x ∈ freeL1List m g ∨ x = g)) := by
  unfold freeL0List
  rw [List.mem_append]
  constructor
  · rintro (hx | hx)
    · rcases List.mem_flatMap.mp hx with ⟨i, hir, hxi⟩
      refine Or.inr ⟨i, List.mem_range.mp hir, ?_⟩
      cases hinv : IS_PTE_INVALID (m root i) with
      | true => simp [hinv] at hxi
      | false =>
        cases htab : IS_PTE_TABLE (m root i) with
        | false => simp [hinv, htab] at hxi
        | true =>
          simp [hinv, htab] at hxi
          exact ⟨getBits (m root i) 12 36, childFrame_of_valid_table hinv htab, hxi⟩
    · exact Or.inl (List.mem_singleton.mp hx)
  · rintro (rfl | ⟨i, hi, g, hcf, hx⟩)
    · exact Or.inr (List.mem_singleton.mpr rfl)
    · refine Or.inl (List.mem_flatMap.mpr ⟨i, List.mem_range.mpr hi, ?_⟩)
      obtain ⟨hI, hT, hg⟩ := childFrame_some_cond hcf
      simp [hI, hT, hg]
      exact hx


theorem mem_freeL0_iff_path {m : Nat → Nat → Nat} {root x : Nat} :
    x ∈ freeL0List m root ↔
      ∃ p : List Nat, p.length ≤ 3 ∧ (∀ i ∈ p, i < PTP_ENTRIES) ∧
        frameAt m root p = some x := by
  constructor
  · intro hx
    rcases mem_freeL0List.mp hx with rfl | ⟨i, hi, g1, hcf1, hx1⟩
    · exact ⟨[], by simp, by simp, rfl⟩
    · rcases hx1 with hx1 | rfl
      · rcases mem_freeL1List.mp hx1 with ⟨j, hj, g2, hcf2, hx2⟩
        rcases hx2 with hx2 | rfl
        · rcases mem_freeL2List.mp hx2 with ⟨k, hk, hcf3⟩
          refine ⟨[i, j, k], by simp, ?_, ?_⟩
          · intro t ht
            simp only [List.mem_cons, List.not_mem_nil, or_false] at ht
            rcases ht with rfl | rfl | rfl <;> assumption
          · rw [frameAt_cons_some]
            exact ⟨g1, hcf1, by
              rw [frameAt_cons_some]
              exact ⟨g2, hcf2, by
                rw [frameAt_cons_some]
                exact ⟨x, hcf3, rfl⟩⟩⟩
        · refine ⟨[i, j], by simp, ?_, ?_⟩
          · intro t ht
            simp only [List.mem_cons, List.not_mem_nil, or_false] at ht
            rcases ht with rfl | rfl <;> assumption
          · rw [frameAt_cons_some]
            exact ⟨g1, hcf1, by
              rw [frameAt_cons_some]
              exact ⟨x, hcf2, rfl⟩⟩
      · refine ⟨[i], by simp, ?_, ?_⟩
        · intro t ht
          simp only [List.mem_cons, List.not_mem_nil, or_false] at ht
          subst ht
          exact hi
        · rw [frameAt_cons_some]
          exact ⟨x, hcf1, rfl⟩
  · rintro ⟨p, hlen, hidx, hfa⟩
    rcases p with _ | ⟨i0, _ | ⟨j0, _ | ⟨k0, _ | ⟨l0, p4⟩⟩⟩⟩
    · have hg : root = x := by simpa [frameAt] using hfa
      exact mem_freeL0List.mpr (Or.inl hg.symm)
    · obtain ⟨g1, hcf1, hr1⟩ := frameAt_cons_some.mp hfa
      have hg : g1 = x := by simpa [frameAt] using hr1
      subst hg
      exact mem_freeL0List.mpr
        (Or.inr ⟨i0, hidx i0 (by simp), g1, hcf1, Or.inr rfl⟩)
    · obtain ⟨g1, hcf1, hr1⟩ := frameAt_cons_some.mp hfa
      obtain ⟨g2, hcf2, hr2⟩ := frameAt_cons_some.mp hr1
      have hg : g2 = x := by simpa [frameAt] using hr2
      subst hg
      exact mem_freeL0List.mpr
        (Or.inr ⟨i0, hidx i0 (by simp), g1, hcf1,
          Or.inl (mem_freeL1List.mpr
            ⟨j0, hidx j0 (by simp), g2, hcf2, Or.inr rfl⟩)⟩)
    · obtain ⟨g1, hcf1, hr1⟩ := frameAt_cons_some.mp hfa
      obtain ⟨g2, hcf2, hr2⟩ := frameAt_cons_some.mp hr1
      obtain ⟨g3, hcf3, hr3⟩ := frameAt_cons_some.mp hr2
      have hg : g3 = x := by simpa [frameAt] using hr3
      subst hg
      exact mem_freeL0List.mpr
        (Or.inr ⟨i0, hidx i0 (by simp), g1, hcf1,
          Or.inl (mem_freeL1List.mpr
            ⟨j0, hidx j0 (by simp), g2, hcf2,
              Or.inl (mem_freeL2List.mpr ⟨k0, hidx k0 (by simp), hcf3⟩)⟩)⟩)
    · exfalso
      simp only [List.length_cons] at hlen
      omega

theorem before_append_left {α : Type} {l2 : List α} {x y : α} (l1 : List α)
    (h : ∃ pre post, l2 = pre ++ x :: post ∧ y ∈ pre) :
    ∃ pre post, l1 ++ l2 = pre ++ x :: post ∧ y ∈ pre := by
  obtain ⟨pre, post, he, hy⟩ := h
  exact ⟨l1 ++ pre, post, by rw [he, List.append_assoc],
    List.mem_append.mpr (Or.inr hy)⟩

theorem before_append_right {α : Type} {l1 : List α} {x y : α} (l2 : List α)
    (h : ∃ pre post, l1 = pre ++ x :: post ∧ y ∈ pre) :
    ∃ pre post, l1 ++ l2 = pre ++ x :: post ∧ y ∈ pre := by
  obtain ⟨pre, post, he, hy⟩ := h
  refine ⟨pre, post ++ l2, ?_, hy⟩
  rw [he, List.append_assoc, List.cons_append]

theorem before_flatMap_range {α : Type} (F : Nat → List α) {x y : α} {i : Nat}
    (n : Nat) (l : List α) (hi : i < n) (hFl : F i = l)
    (h : ∃ pre post, l = pre ++ x :: post ∧ y ∈ pre) :
    ∃ pre post, (List.range n).flatMap F = pre ++ x :: post ∧ y ∈ pre := by
  subst hFl
  induction n with
  | zero => exact absurd hi (Nat.not_lt_zero i)
  | succ n ih =>
    rw [List.range_succ, List.flatMap_append]
    rcases Nat.lt_succ_iff_lt_or_eq.mp hi with h' | h'
    · exact before_append_right _ (ih h')
    · subst h'
      apply before_append_left
      rw [List.flatMap_cons, List.flatMap_nil, List.append_nil]
      exact h


set_option maxRecDepth 8192 in
/-- C9: `free_page_table`'s traversal (the frame list `freeL0List`)
frees exactly the frames reachable from the root by following valid
Table entries at levels 0-2 (the root included); every reached table
frame is freed after all table frames below it (child before parent, so
L3 tables precede their L2, L2 their L1, L1 the root); and a frame that
no table-entry path reaches — in particular a frame referenced only by
Leaf (page or block) entries, which `childFrame` rejects — is never
passed to the free operation. -/
theorem C9_free_tree_postorder (m : Nat → Nat → Nat) (root : Nat) :
    (∀ x, x ∈ freeL0List m root ↔
      ∃ p : List Nat, p.length ≤ 3 ∧ (∀ i ∈ p, i < PTP_ENTRIES) ∧
        frameAt m root p = some x) ∧
    (∀ p x i y, p.length ≤ 2 → (∀ j ∈ p, j < PTP_ENTRIES) →
      frameAt m root p = some x → i < PTP_ENTRIES → childFrame m x i = some y →
      ∃ pre post, freeL0List m root = pre ++ x :: post ∧ y ∈ pre) ∧
    (∀ y, (∀ p : List Nat, p.length ≤ 3 → (∀ i ∈ p, i < PTP_ENTRIES) →
        frameAt m root p ≠ some y) → y ∉ freeL0List m root) := by
  refine ⟨fun x => mem_freeL0_iff_path, ?_, ?_⟩
  · intro p x i y hlen hidx hfa hi hcf
    rcases p with _ | ⟨i0, _ | ⟨j0, _ | ⟨k0, p3⟩⟩⟩
    · have hg : root = x := by simpa [frameAt] using hfa
      subst hg
      unfold freeL0List
      refine ⟨_, [], rfl, ?_⟩
      apply List.mem_flatMap.mpr
      refine ⟨i, List.mem_range.mpr hi, ?_⟩
      rw [freeL0_branch hcf]
      exact List.mem_append.mpr (Or.inr (List.mem_singleton.mpr rfl))
    · obtain ⟨g1, hcf1, hr1⟩ := frameAt_cons_some.mp hfa
      have hg : g1 = x := by simpa [frameAt] using hr1
      subst hg
      unfold freeL0List
      apply before_append_right
      apply before_flatMap_range _ PTP_ENTRIES (freeL1List m g1 ++ [g1])
        (hidx i0 (by simp)) (freeL0_branch hcf1)
      refine ⟨freeL1List m g1, [], rfl, ?_⟩
      exact mem_freeL1List.mpr ⟨i, hi, y, hcf, Or.inr rfl⟩
    · obtain ⟨g1, hcf1, hr1⟩ := frameAt_cons_some.mp hfa
      obtain ⟨g2, hcf2, hr2⟩ := frameAt_cons_some.mp hr1
      have hg : g2 = x := by simpa [frameAt] using hr2
      subst hg
      unfold freeL0List
      apply before_append_right
      apply before_flatMap_range _ PTP_ENTRIES (freeL1List m g1 ++ [g1])
        (hidx i0 (by simp)) (freeL0_branch hcf1)
      apply before_append_right
      unfold freeL1List
      apply before_flatMap_range _ PTP_ENTRIES (freeL2List m g2 ++ [g2])
        (hidx j0 (by simp)) (freeL1_branch hcf2)
      refine ⟨freeL2List m g2, [], rfl, ?_⟩
      exact mem_freeL2List.mpr ⟨i, hi, hcf⟩
    · exfalso
      simp only [List.length_cons] at hlen
      omega
  · intro y h hy
    rcases mem_freeL0_iff_path.mp hy with ⟨p, h1, h2, h3⟩
    exact h p h1 h2 h3

/-- Witness for C9: on any tree the root itself is freed — e.g. the
empty path reaches frame 0 from root 0 in the all-zero memory. -/
theorem C9_free_tree_postorder_witness :
    0 ∈ freeL0List (fun _ _ => 0) 0 :=
  ((C9_free_tree_postorder (fun _ _ => 0) 0).1 0).mpr
    ⟨[], by simp, by simp, rfl⟩


/-! ## Claim C8: huge mapping allocates far fewer tables -/

theorem huge_index_inj {j j' : Nat} (hj : j < 515) (hj' : j' < 515)
    (h1 : GET_L1_INDEX (4294967296 + j * 2097152)
        = GET_L1_INDEX (4294967296 + j' * 2097152))
    (h2 : GET_L2_INDEX (4294967296 + j * 2097152)
        = GET_L2_INDEX (4294967296 + j' * 2097152)) :
    j = j' := by
  have h1' : (4294967296 + j * 2097152) / 1073741824 % 512
      = (4294967296 + j' * 2097152) / 1073741824 % 512 := h1
  have h2' : (4294967296 + j * 2097152) / 2097152 % 512
      = (4294967296 + j' * 2097152) / 2097152 % 512 := h2
  omega

/-- C8: on a fresh root, mapping the 1GB + 4MB + 10-page range at
`0x1_0000_0000` with the huge-page mapper allocates exactly 3 table
pages (one L1, one L2, one L3 table), at most 8; the page-granularity
mapper on the same range needs an L3 table per 512 leaf pages, hence at
least 515 allocations — strictly more. -/
theorem C8_huge_allocates_fewer :
    ∃ stH stP,
      map_range_in_pgtbl_huge (initState 0) 0 4294967296 4294967296 1077977088 3
        = some stH ∧
      map_range_in_pgtbl (initState 0) 0 4294967296 4294967296 1077977088 3
        = some stP ∧
      stH.allocs = 3 ∧ stH.allocs ≤ 8 ∧
      515 ≤ stP.allocs ∧ stH.allocs < stP.allocs := by
  have hH : allocsOf (map_range_in_pgtbl_huge (initState 0) 0
      4294967296 4294967296 1077977088 3) = 3 := by decide
  have hInv := @Inv_init (initState 0) 0 (fun s _ => rfl) (by decide)
  obtain ⟨stP, hmP, hInvP, hnbP, hle1, hle2, hallocP, hfreedP, hpresP, hprovP,
      hmapdP, hfcP⟩ :=
    map_loop_spec 263178 (initState 0) 0 4294967296 4294967296 3 263178
      (le_refl _) hInv.1 hInv.2 (by decide) (by decide) (by decide) (by decide)
      (by decide)
  have hmP' : map_range_in_pgtbl (initState 0) 0 4294967296 4294967296
      1077977088 3 = some stP := by
    unfold map_range_in_pgtbl
    have hp : pagesOf 1077977088 = 263178 := by decide
    rw [hp]
    exact hmP
  have hsome : ∀ j, j < 515 →
      frameAt stP.mem 0 (path3 (4294967296 + j * 2097152))
        = some ((frameAt stP.mem 0 (path3 (4294967296 + j * 2097152))).getD 0) := by
    intro j hj
    obtain ⟨f3, hf3, _⟩ := hmapdP (j * 512) (by omega)
    have harg : 4294967296 + j * 512 * PAGE_SIZE = 4294967296 + j * 2097152 := by
      show 4294967296 + j * 512 * 4096 = 4294967296 + j * 2097152
      ring
    rw [harg] at hf3
    rw [hf3]
    rfl
  have hzeroWalk : ∀ v : Nat, frameAt (initState 0).mem 0 (path3 v) = none := by
    intro v
    show frameAt (initState 0).mem 0
      (GET_L0_INDEX v :: [GET_L1_INDEX v, GET_L2_INDEX v]) = none
    rw [frameAt_cons, childFrame_of_invalid (by rfl)]
    rfl
  have hrange : ∀ j, j < 515 →
      1 ≤ (frameAt stP.mem 0 (path3 (4294967296 + j * 2097152))).getD 0 ∧
      (frameAt stP.mem 0 (path3 (4294967296 + j * 2097152))).getD 0 < stP.next := by
    intro j hj
    have hf := hsome j hj
    rcases hprovP (path3 (4294967296 + j * 2097152)) _ (goodPath_path3 _) hf with h | h
    · rw [hzeroWalk] at h
      exact absurd h (by simp)
    · exact ⟨h.1, h.2⟩
  have hinj : Set.InjOn
      (fun j => (frameAt stP.mem 0 (path3 (4294967296 + j * 2097152))).getD 0)
      ↑(Finset.range 515) := by
    intro j hj j' hj' hEq
    simp only [Finset.coe_range, Set.mem_Iio] at hj hj'
    have hfj := hsome j hj
    have hfj' := hsome j' hj'
    simp only [] at hEq
    rw [hEq] at hfj
    have hpq := hInvP.inj _ _ _ (goodPath_path3 _) (goodPath_path3 _) hfj hfj'
    rw [path3_eq_iff] at hpq
    exact huge_index_inj hj hj' hpq.2.1 hpq.2.2
  have hsub : (Finset.range 515).image
      (fun j => (frameAt stP.mem 0 (path3 (4294967296 + j * 2097152))).getD 0)
        ⊆ Finset.Ico 1 stP.next := by
    intro x hx
    rcases Finset.mem_image.mp hx with ⟨j, hj, rfl⟩
    exact Finset.mem_Ico.mpr (hrange j (Finset.mem_range.mp hj))
  have hcard : 515 ≤ stP.next - 1 := by
    have h1 := Finset.card_image_of_injOn hinj
    have h2 := Finset.card_le_card hsub
    rw [h1] at h2
    simp [Finset.card_range, Nat.card_Ico] at h2
    exact h2
  have hnext0 : (initState 0).next = 1 := rfl
  have hallocs0 : (initState 0).allocs = 0 := rfl
  have hPalloc : 515 ≤ stP.allocs := by
    rw [hnext0, hallocs0] at hallocP
    omega
  cases hE : map_range_in_pgtbl_huge (initState 0) 0 4294967296 4294967296
      1077977088 3 with
  | none =>
    rw [hE] at hH
    exact absurd hH (by decide)
  | some stH =>
    rw [hE] at hH
    have hH3 : stH.allocs = 3 := hH
    exact ⟨stH, stP, rfl, hmP', hH3, by omega, hPalloc, by omega⟩


/-! ## Claim C7: huge unmapper block handling -/

theorem query_none_at_L1 {st : MState} {root va : Nat}
    (h0 : IS_PTE_INVALID (st.mem root (GET_L0_INDEX va)) = false)
    (h1 : IS_PTE_INVALID (st.mem (walkFrame1 st.mem root va) (GET_L1_INDEX va))
        = true) :
    query_in_pgtbl st (some root) va = (none, st) := by
  have hq0 : get_next_ptp st (some root) 0 va false
      = (GNP.found (IS_PTE_TABLE (st.mem root (GET_L0_INDEX va)))
          (walkFrame1 st.mem root va) root (getIndex 0 va), st) :=
    gnp_false_valid h0
  have hq1 : get_next_ptp st (some (walkFrame1 st.mem root va)) 1 va false
      = (GNP.noMapping, st) := gnp_false_invalid h1
  unfold query_in_pgtbl
  rw [hq0]
  simp only [hq1]

theorem query_none_at_L2 {st : MState} {root va : Nat}
    (h0 : IS_PTE_INVALID (st.mem root (GET_L0_INDEX va)) = false)
    (h1i : IS_PTE_INVALID (st.mem (walkFrame1 st.mem root va) (GET_L1_INDEX va))
        = false)
    (h1t : IS_PTE_TABLE (st.mem (walkFrame1 st.mem root va) (GET_L1_INDEX va))
        = true)
    (h2 : IS_PTE_INVALID (st.mem (walkFrame2 st.mem root va) (GET_L2_INDEX va))
        = true) :
    query_in_pgtbl st (some root) va = (none, st) := by
  have hq0 : get_next_ptp st (some root) 0 va false
      = (GNP.found (IS_PTE_TABLE (st.mem root (GET_L0_INDEX va)))
          (walkFrame1 st.mem root va) root (getIndex 0 va), st) :=
    gnp_false_valid h0
  have hq1 : get_next_ptp st (some (walkFrame1 st.mem root va)) 1 va false
      = (GNP.found (IS_PTE_TABLE (st.mem (walkFrame1 st.mem root va)
            (GET_L1_INDEX va)))
          (walkFrame2 st.mem root va) (walkFrame1 st.mem root va)
          (getIndex 1 va), st) :=
    gnp_false_valid h1i
  rw [h1t] at hq1
  have hq2 : get_next_ptp st (some (walkFrame2 st.mem root va)) 2 va false
      = (GNP.noMapping, st) := gnp_false_invalid h2
  unfold query_in_pgtbl
  rw [hq0]
  simp only [hq1, hq2]

theorem query_none_at_L3 {st : MState} {root va : Nat}
    (h0 : IS_PTE_INVALID (st.mem root (GET_L0_INDEX va)) = false)
    (h1i : IS_PTE_INVALID (st.mem (walkFrame1 st.mem root va) (GET_L1_INDEX va))
        = false)
    (h1t : IS_PTE_TABLE (st.mem (walkFrame1 st.mem root va) (GET_L1_INDEX va))
        = true)
    (h2i : IS_PTE_INVALID (st.mem (walkFrame2 st.mem root va) (GET_L2_INDEX va))
        = false)
    (h2t : IS_PTE_TABLE (st.mem (walkFrame2 st.mem root va) (GET_L2_INDEX va))
        = true)
    (h3 : IS_PTE_INVALID (st.mem (walkFrame3 st.mem root va) (GET_L3_INDEX va))
        = true) :
    query_in_pgtbl st (some root) va = (none, st) := by
  have hq0 : get_next_ptp st (some root) 0 va false
      = (GNP.found (IS_PTE_TABLE (st.mem root (GET_L0_INDEX va)))
          (walkFrame1 st.mem root va) root (getIndex 0 va), st) :=
    gnp_false_valid h0
  have hq1 : get_next_ptp st (some (walkFrame1 st.mem root va)) 1 va false
      = (GNP.found (IS_PTE_TABLE (st.mem (walkFrame1 st.mem root va)
            (GET_L1_INDEX va)))
          (walkFrame2 st.mem root va) (walkFrame1 st.mem root va)
          (getIndex 1 va), st) :=
    gnp_false_valid h1i
  rw [h1t] at hq1
  have hq2 : get_next_ptp st (some (walkFrame2 st.mem root va)) 2 va false
      = (GNP.found (IS_PTE_TABLE (st.mem (walkFrame2 st.mem root va)
            (GET_L2_INDEX va)))
          (walkFrame3 st.mem root va) (walkFrame2 st.mem root va)
          (getIndex 2 va), st) :=
    gnp_false_valid h2i
  rw [h2t] at hq2
  have hq3 : get_next_ptp st (some (walkFrame3 st.mem root va)) 3 va false
      = (GNP.noMapping, st) := gnp_false_invalid h3
  unfold query_in_pgtbl
  rw [hq0]
  simp only [hq1, hq2, hq3]


/-- C7: when the huge unmapper's walk reaches an existing block leaf at
level 1 (resp. level 2), it invalidates that single descriptor in place
— without descending further — and advances `vaddr` by the block's span
and the remaining page count by 512*512 (resp. 512) pages; and a range
previously mapped by the huge mapper (the 1GB + 4MB + 10-page lab
range) is entirely unmapped: afterwards every address in it translates
to NoMapping. -/
theorem C7_huge_unmap_blocks :
    (∀ (fuel : Nat) (st : MState) (root va pn : Nat),
      pn ≠ 0 →
      IS_PTE_INVALID (st.mem root (GET_L0_INDEX va)) = false →
      IS_PTE_INVALID (st.mem (walkFrame1 st.mem root va) (GET_L1_INDEX va))
        = false →
      IS_PTE_TABLE (st.mem (walkFrame1 st.mem root va) (GET_L1_INDEX va))
        = false →
      unmap_huge_loop (fuel + 1) st root va pn
        = unmap_huge_loop fuel
            (writePte st (walkFrame1 st.mem root va) (GET_L1_INDEX va)
              PTE_DESCRIPTOR_INVALID)
            root ((va + PAGE_SIZE * PTP_ENTRIES * PTP_ENTRIES) % U64)
            ((pn + (U64 - PTP_ENTRIES * PTP_ENTRIES)) % U64)) ∧
    (∀ (fuel : Nat) (st : MState) (root va pn : Nat),
      pn ≠ 0 →
      IS_PTE_INVALID (st.mem root (GET_L0_INDEX va)) = false →
      IS_PTE_INVALID (st.mem (walkFrame1 st.mem root va) (GET_L1_INDEX va))
        = false →
      IS_PTE_TABLE (st.mem (walkFrame1 st.mem root va) (GET_L1_INDEX va))
        = true →
      IS_PTE_INVALID (st.mem (walkFrame2 st.mem root va) (GET_L2_INDEX va))
        = false →
      IS_PTE_TABLE (st.mem (walkFrame2 st.mem root va) (GET_L2_INDEX va))
        = false →
      unmap_huge_loop (fuel + 1) st root va pn
        = unmap_huge_loop fuel
            (writePte st (walkFrame2 st.mem root va) (GET_L2_INDEX va)
              PTE_DESCRIPTOR_INVALID)
            root ((va + PAGE_SIZE * PTP_ENTRIES) % U64)
            ((pn + (U64 - PTP_ENTRIES)) % U64)) ∧
    (∃ stH stF,
      map_range_in_pgtbl_huge (initState 0) 0 4294967296 4294967296 1077977088 3
        = some stH ∧
      unmap_range_in_pgtbl_huge stH 0 4294967296 1077977088 = some stF ∧
      ∀ v, 4294967296 ≤ v → v < 5372944384 →
        query_in_pgtbl stF (some 0) v = (none, stF)) := by
  refine ⟨?_, ?_, ?_⟩
  · intro fuel st root va pn hpn h0 h1i h1t
    have hq0 : get_next_ptp st (some root) 0 va false
        = (GNP.found (IS_PTE_TABLE (st.mem root (GET_L0_INDEX va)))
            (walkFrame1 st.mem root va) root (getIndex 0 va), st) :=
      gnp_false_valid h0
    have hq1 : get_next_ptp st (some (walkFrame1 st.mem root va)) 1 va false
        = (GNP.found (IS_PTE_TABLE (st.mem (walkFrame1 st.mem root va)
              (GET_L1_INDEX va)))
            (walkFrame2 st.mem root va) (walkFrame1 st.mem root va)
            (getIndex 1 va), st) :=
      gnp_false_valid h1i
    rw [h1t] at hq1
    rw [unmap_huge_loop, if_neg hpn]
    simp only [hq0, hq1]
    rfl
  · intro fuel st root va pn hpn h0 h1i h1t h2i h2t
    have hq0 : get_next_ptp st (some root) 0 va false
        = (GNP.found (IS_PTE_TABLE (st.mem root (GET_L0_INDEX va)))
            (walkFrame1 st.mem root va) root (getIndex 0 va), st) :=
      gnp_false_valid h0
    have hq1 : get_next_ptp st (some (walkFrame1 st.mem root va)) 1 va false
        = (GNP.found (IS_PTE_TABLE (st.mem (walkFrame1 st.mem root va)
              (GET_L1_INDEX va)))
            (walkFrame2 st.mem root va) (walkFrame1 st.mem root va)
            (getIndex 1 va), st) :=
      gnp_false_valid h1i
    rw [h1t] at hq1
    have hq2 : get_next_ptp st (some (walkFrame2 st.mem root va)) 2 va false
        = (GNP.found (IS_PTE_TABLE (st.mem (walkFrame2 st.mem root va)
              (GET_L2_INDEX va)))
            (walkFrame3 st.mem root va) (walkFrame2 st.mem root va)
            (getIndex 2 va), st) :=
      gnp_false_valid h2i
    rw [h2t] at hq2
    rw [unmap_huge_loop, if_neg hpn]
    simp only [hq0, hq1, hq2]
    rfl
  · have hS : (map_range_in_pgtbl_huge (initState 0) 0 4294967296 4294967296
        1077977088 3).isSome = true := by decide
    cases hE1 : map_range_in_pgtbl_huge (initState 0) 0 4294967296 4294967296
        1077977088 3 with
    | none =>
      rw [hE1] at hS
      simp at hS
    | some stH =>
      have hU : ((map_range_in_pgtbl_huge (initState 0) 0 4294967296 4294967296 1077977088 3).bind (fun s => unmap_range_in_pgtbl_huge s 0 4294967296 1077977088))
          = unmap_range_in_pgtbl_huge stH 0 4294967296 1077977088 := by
        rw [hE1]
        rfl
      have hS2 : ((map_range_in_pgtbl_huge (initState 0) 0 4294967296 4294967296 1077977088 3).bind (fun s => unmap_range_in_pgtbl_huge s 0 4294967296 1077977088)).isSome = true := by decide
      rw [hU] at hS2
      cases hE2 : unmap_range_in_pgtbl_huge stH 0 4294967296 1077977088 with
      | none =>
        rw [hE2] at hS2
        simp at hS2
      | some stF =>
        have hrun : ((map_range_in_pgtbl_huge (initState 0) 0 4294967296 4294967296 1077977088 3).bind (fun s => unmap_range_in_pgtbl_huge s 0 4294967296 1077977088)) = some stF := by rw [hU, hE2]
        have hm : ∀ f s, stF.mem f s = memOf ((map_range_in_pgtbl_huge (initState 0) 0 4294967296 4294967296 1077977088 3).bind (fun s => unmap_range_in_pgtbl_huge s 0 4294967296 1077977088)) f s := by
          intro f s
          rw [hrun]
          rfl
        refine ⟨stH, stF, rfl, hE2, ?_⟩
        intro v hv1 hv2
        have hL0 : GET_L0_INDEX v = 0 := by
          show v / 549755813888 % 512 = 0
          omega
        have h0 : IS_PTE_INVALID (stF.mem 0 (GET_L0_INDEX v)) = false := by
          rw [hL0, hm 0 0]
          decide
        have hw1 : walkFrame1 stF.mem 0 v = 1 := by
          unfold walkFrame1
          rw [hL0, hm 0 0]
          decide
        rcases Nat.lt_or_ge v 5368709120 with hva | hvb
        · have hL1 : GET_L1_INDEX v = 4 := by
            show v / 1073741824 % 512 = 4
            omega
          apply query_none_at_L1 h0
          rw [hw1, hL1, hm 1 4]
          decide
        · have hL1 : GET_L1_INDEX v = 5 := by
            show v / 1073741824 % 512 = 5
            omega
          have h1i : IS_PTE_INVALID (stF.mem (walkFrame1 stF.mem 0 v)
              (GET_L1_INDEX v)) = false := by
            rw [hw1, hL1, hm 1 5]
            decide
          have h1t : IS_PTE_TABLE (stF.mem (walkFrame1 stF.mem 0 v)
              (GET_L1_INDEX v)) = true := by
            rw [hw1, hL1, hm 1 5]
            decide
          have hw2 : walkFrame2 stF.mem 0 v = 2 := by
            unfold walkFrame2
            rw [hw1, hL1, hm 1 5]
            decide
          rcases Nat.lt_or_ge v 5372903424 with hvc | hvd
          · have hL2lt : GET_L2_INDEX v < 2 := by
              show v / 2097152 % 512 < 2
              omega
            have hF7 : ∀ t, t < 2 →
                IS_PTE_INVALID (memOf ((map_range_in_pgtbl_huge (initState 0) 0 4294967296 4294967296 1077977088 3).bind (fun s => unmap_range_in_pgtbl_huge s 0 4294967296 1077977088)) 2 t) = true := by decide
            apply query_none_at_L2 h0 h1i h1t
            rw [hw2, hm 2 (GET_L2_INDEX v)]
            exact hF7 _ hL2lt
          · have hL2 : GET_L2_INDEX v = 2 := by
              show v / 2097152 % 512 = 2
              omega
            have h2i : IS_PTE_INVALID (stF.mem (walkFrame2 stF.mem 0 v)
                (GET_L2_INDEX v)) = false := by
              rw [hw2, hL2, hm 2 2]
              decide
            have h2t : IS_PTE_TABLE (stF.mem (walkFrame2 stF.mem 0 v)
                (GET_L2_INDEX v)) = true := by
              rw [hw2, hL2, hm 2 2]
              decide
            have hw3 : walkFrame3 stF.mem 0 v = 3 := by
              unfold walkFrame3
              rw [hw2, hL2, hm 2 2]
              decide
            have hL3lt : GET_L3_INDEX v < 10 := by
              show v / 4096 % 512 < 10
              omega
            have hF11 : ∀ t, t < 10 →
                IS_PTE_INVALID (memOf ((map_range_in_pgtbl_huge (initState 0) 0 4294967296 4294967296 1077977088 3).bind (fun s => unmap_range_in_pgtbl_huge s 0 4294967296 1077977088)) 3 t) = true := by decide
            apply query_none_at_L3 h0 h1i h1t h2i h2t
            rw [hw3, hm 3 (GET_L3_INDEX v)]
            exact hF11 _ hL3lt

/-- Witness for C7: translating the first address of the huge-mapped
then huge-unmapped lab range yields NoMapping. -/
theorem C7_huge_unmap_blocks_witness :
    ∃ stH stF,
      map_range_in_pgtbl_huge (initState 0) 0 4294967296 4294967296 1077977088 3
        = some stH ∧
      unmap_range_in_pgtbl_huge stH 0 4294967296 1077977088 = some stF ∧
      query_in_pgtbl stF (some 0) 4294967296 = (none, stF) := by
  obtain ⟨_, _, stH, stF, h1, h2, h3⟩ := C7_huge_unmap_blocks
  exact ⟨stH, stF, h1, h2, h3 4294967296 (by decide) (by decide)⟩

end ChCorePT
